import Mathlib

/-!
Verification of the bash-to-powershell transpiler (TypeScript sources under
`src/`) against its natural-language specification.

The TypeScript program is shallowly embedded below.  Strings are modelled as
`List Char` (`Str`); every JavaScript loop is rendered as a fueled recursion.
Loops that provably advance their position on every iteration receive a local
fuel of `input.length + 1`, which can never be exhausted (each iteration
consumes at least one character or token), so the embedded function computes
exactly what the JavaScript does.  The parser's outer statement loop
(`parseScript` in `src/parser.ts`, given as `src/unnamed/part_005`) can fail
to make progress — this is the subject of several claims — so it is driven by
an explicit global fuel: a result of `.out` for every fuel models divergence
of the original program.

Embedded components: `src/lexer.ts` (whole file), `src/parser.ts`
(`src/unnamed/part_005`, whole file), `src/transformer.ts` (whole file),
`src/index.ts` (`transpile`, `transpileWithMeta`), the shared argument
reader from `src/commands/arg-parser.ts` (`src/unnamed/part_003`), and the
translators exercised by the claims: `grep`, `cat`, `wc` and the inline `cd`
translator of `src/commands/index.ts`.  The remaining registered command
names are carried in the registry so that dispatch (registered vs.
pass-through) is faithful; their translator bodies are represented by
`TransKind.other` and are not relied on by any theorem.
-/

namespace BashPS

/-- A JavaScript string, modelled as its list of UTF-16-ish characters. -/
abbrev Str := List Char

/-- Shorthand for building a `Str` from a Lean string literal. -/
def str (s : String) : Str := s.data

/-- Character at index `i`, JS `input.charCodeAt(i)`; out of range gives `\0`
(every use below is guarded by a length test exactly as in the source). -/
def cAt (inp : Str) (i : Nat) : Char := inp.getD i (Char.ofNat 0)

/-- The backtick character (PowerShell's escape character). -/
def bTick : Char := Char.ofNat 96

/-- Left curly brace. -/
def lBrace : Char := Char.ofNat 123

/-- Right curly brace. -/
def rBrace : Char := Char.ofNat 125

/-- lexer.ts META table: shell metacharacters. -/
def isMeta (c : Char) : Bool :=
  c = '|' || c = '&' || c = ';' || c = '(' || c = ')' ||
  c = '<' || c = '>' || c = ' ' || c = '\t' || c = '\n' || c = '\r'

/-- lexer.ts VAR_START table: `[A-Za-z_]`. -/
def isVarStart (c : Char) : Bool :=
  ('A' ≤ c && c ≤ 'Z') || ('a' ≤ c && c ≤ 'z') || c = '_'

/-- lexer.ts VAR_BODY table: `[A-Za-z0-9_]`. -/
def isVarBody (c : Char) : Bool :=
  isVarStart c || ('0' ≤ c && c ≤ '9')

/-- lexer.ts SPECIAL_VAR table: `? # ! $ @ 0-9`. -/
def isSpecialVar (c : Char) : Bool :=
  c = '?' || c = '#' || c = '!' || c = '$' || c = '@' || ('0' ≤ c && c ≤ '9')

/-- lexer.ts HEX table. -/
def isHexDigit (c : Char) : Bool :=
  ('0' ≤ c && c ≤ '9') || ('A' ≤ c && c ≤ 'F') || ('a' ≤ c && c ≤ 'f')

/-- Decimal digit test. -/
def isDigit (c : Char) : Bool := '0' ≤ c && c ≤ '9'

/-- Octal digit test (`0`-`7`). -/
def isOctDigit (c : Char) : Bool := '0' ≤ c && c ≤ '7'

/-- Numeric value of a decimal digit character. -/
def digitVal (c : Char) : Nat := c.toNat - 48

/-- Value of a hex digit character. -/
def hexVal (c : Char) : Nat :=
  if '0' ≤ c && c ≤ '9' then c.toNat - 48
  else if 'A' ≤ c && c ≤ 'F' then c.toNat - 55
  else c.toNat - 87

/-- Fold digit characters to a number in the given base. -/
def digitsToNat (base : Nat) (ds : List Char) : Nat :=
  ds.foldl (fun acc c => acc * base + (if base = 16 then hexVal c else digitVal c)) 0

/-- Token kinds, from the `TokenType` enum in src/types.ts. -/
inductive TokTy where
  | word | singleQuoted | doubleQuoted | dollarSingleQuoted
  | pipe | andTk | orTk | semi | newline | background
  | redirectOut | redirectAppend | redirectIn | hereDoc | hereString
  | leftParen | rightParen | eofTk
deriving DecidableEq, Repr

/-- A lexer token: kind, payload, and optional redirect file descriptors. -/
structure Token where
  ty : TokTy
  value : Str
  fd : Option Nat := none
  targetFd : Option Nat := none
deriving DecidableEq, Repr

/-- Token without fd fields, the common case. -/
def tok (ty : TokTy) (v : Str) : Token := { ty := ty, value := v }

-- ===================================================================
-- LEXER (src/lexer.ts)
-- ===================================================================

/-- lexer.ts `readSingleQuoted` scan: collect characters up to the next
single quote (fuel never runs out: each step advances). -/
def scanSQ (inp : Str) : Nat → Nat → (Str × Nat)
  | 0, i => ([], i)
  | fuel + 1, i =>
    if i < inp.length then
      if cAt inp i = '\'' then ([], i)
      else
        let (v, j) := scanSQ inp fuel (i + 1)
        (cAt inp i :: v, j)
    else ([], i)

/-- lexer.ts `readSingleQuoted`: `i` is at the opening quote; the closing
quote is skipped when present. -/
def readSingleQuoted (inp : Str) (i : Nat) : (Str × Nat) :=
  let (value, j) := scanSQ inp (inp.length + 1) (i + 1)
  (value, if j < inp.length then j + 1 else j)

/-- lexer.ts `readDoubleQuoted` body (fast and slow path combined; the fast
path is just the slow path while no backslash has occurred). -/
def scanDQ (inp : Str) : Nat → Nat → (Str × Nat)
  | 0, i => ([], i)
  | fuel + 1, i =>
    if i < inp.length then
      let c := cAt inp i
      if c = '"' then ([], i + 1)
      else if c = '\\' && decide (i + 1 < inp.length) &&
          (cAt inp (i + 1) = '"' || cAt inp (i + 1) = '\\' || cAt inp (i + 1) = '$' ||
           cAt inp (i + 1) = bTick || cAt inp (i + 1) = '\n') then
        if cAt inp (i + 1) = '\n' then scanDQ inp fuel (i + 2)  -- line continuation
        else
          let (v, j) := scanDQ inp fuel (i + 2)
          (cAt inp (i + 1) :: v, j)
      else
        let (v, j) := scanDQ inp fuel (i + 1)
        (c :: v, j)
    else ([], i)

/-- lexer.ts `readDoubleQuoted`: `i` is at the opening quote. -/
def readDoubleQuoted (inp : Str) (i : Nat) : (Str × Nat) :=
  scanDQ inp (inp.length + 1) (i + 1)

/-- Collect up to `k` octal digits, lexer.ts lines 136-143. -/
def takeOct (inp : Str) (i : Nat) : Nat → (List Char × Nat)
  | 0 => ([], i)
  | k + 1 =>
    if i < inp.length && isOctDigit (cAt inp i) then
      let (ds, j) := takeOct inp (i + 1) k
      (cAt inp i :: ds, j)
    else ([], i)

/-- Collect up to `k` hex digits, lexer.ts lines 144-159. -/
def takeHex (inp : Str) (i : Nat) : Nat → (List Char × Nat)
  | 0 => ([], i)
  | k + 1 =>
    if i < inp.length && isHexDigit (cAt inp i) then
      let (ds, j) := takeHex inp (i + 1) k
      (cAt inp i :: ds, j)
    else ([], i)

/-- lexer.ts `readDollarSingleQuoted` loop: C-style escapes. -/
def scanDSQ (inp : Str) : Nat → Nat → (Str × Nat)
  | 0, i => ([], i)
  | fuel + 1, i =>
    if i < inp.length then
      let c := cAt inp i
      if c = '\'' then ([], i + 1)
      else if c = '\\' then
        if i + 1 < inp.length then
          let esc := cAt inp (i + 1)
          let k := i + 2
          if esc = 'n' then let (v, j) := scanDSQ inp fuel k; ('\n' :: v, j)
          else if esc = 't' then let (v, j) := scanDSQ inp fuel k; ('\t' :: v, j)
          else if esc = 'r' then let (v, j) := scanDSQ inp fuel k; ('\r' :: v, j)
          else if esc = '\\' then let (v, j) := scanDSQ inp fuel k; ('\\' :: v, j)
          else if esc = '\'' then let (v, j) := scanDSQ inp fuel k; ('\'' :: v, j)
          else if esc = '"' then let (v, j) := scanDSQ inp fuel k; ('"' :: v, j)
          else if esc = 'a' then let (v, j) := scanDSQ inp fuel k; (Char.ofNat 7 :: v, j)
          else if esc = 'b' then let (v, j) := scanDSQ inp fuel k; (Char.ofNat 8 :: v, j)
          else if esc = 'e' || esc = 'E' then
            let (v, j) := scanDSQ inp fuel k; (Char.ofNat 27 :: v, j)
          else if esc = '0' then
            let (ds, k') := takeOct inp k 3
            let ch := if ds.isEmpty then Char.ofNat 0 else Char.ofNat (digitsToNat 8 ds)
            let (v, j) := scanDSQ inp fuel k'
            (ch :: v, j)
          else if esc = 'x' then
            let (ds, k') := takeHex inp k 2
            let (v, j) := scanDSQ inp fuel k'
            (if ds.isEmpty then (v, j) else (Char.ofNat (digitsToNat 16 ds) :: v, j))
          else if esc = 'u' then
            let (ds, k') := takeHex inp k 4
            let (v, j) := scanDSQ inp fuel k'
            (if ds.isEmpty then (v, j) else (Char.ofNat (digitsToNat 16 ds) :: v, j))
          else let (v, j) := scanDSQ inp fuel k; (esc :: v, j)
        else ([], i + 1)  -- lone backslash at end of input: loop breaks
      else
        let (v, j) := scanDSQ inp fuel (i + 1)
        (c :: v, j)
    else ([], i)

/-- lexer.ts `readDollarSingleQuoted`: `i` is at the `$` of `$'`. -/
def readDollarSingleQuoted (inp : Str) (i : Nat) : (Str × Nat) :=
  scanDSQ inp (inp.length + 1) (i + 2)

/-- Inner single-quote scan of `readCommandSubstitution` (lines 182-188):
the quotes themselves are kept in the content. -/
def scanCSsq (inp : Str) : Nat → Nat → (Str × Nat)
  | 0, i => ([], i)
  | fuel + 1, i =>
    if i < inp.length && !(cAt inp i = '\'') then
      let (v, j) := scanCSsq inp fuel (i + 1)
      (cAt inp i :: v, j)
    else if i < inp.length then (['\''], i + 1)
    else ([], i)

/-- Inner double-quote scan of `readCommandSubstitution` (lines 189-201). -/
def scanCSdq (inp : Str) : Nat → Nat → (Str × Nat)
  | 0, i => ([], i)
  | fuel + 1, i =>
    if i < inp.length then
      if cAt inp i = '\\' && decide (i + 1 < inp.length) &&
          (cAt inp (i + 1) = '"' || cAt inp (i + 1) = '\\') then
        let (v, j) := scanCSdq inp fuel (i + 2)
        (cAt inp i :: cAt inp (i + 1) :: v, j)
      else if cAt inp i = '"' then (['"'], i + 1)
      else
        let (v, j) := scanCSdq inp fuel (i + 1)
        (cAt inp i :: v, j)
    else ([], i)

/-- lexer.ts `readCommandSubstitution` main loop: paren-depth balanced, with
quoted regions passed through verbatim. -/
def scanCS (inp : Str) : Nat → Nat → Nat → (Str × Nat)
  | 0, i, _ => ([], i)
  | fuel + 1, i, depth =>
    if i < inp.length && decide (0 < depth) then
      let c := cAt inp i
      if c = '(' then
        let (v, j) := scanCS inp fuel (i + 1) (depth + 1)
        ('(' :: v, j)
      else if c = ')' then
        if depth = 1 then ([], i + 1)
        else
          let (v, j) := scanCS inp fuel (i + 1) (depth - 1)
          (')' :: v, j)
      else if c = '\'' then
        let (inner, k) := scanCSsq inp (inp.length + 1) (i + 1)
        let (v, j) := scanCS inp fuel k depth
        ('\'' :: (inner ++ v), j)
      else if c = '"' then
        let (inner, k) := scanCSdq inp (inp.length + 1) (i + 1)
        let (v, j) := scanCS inp fuel k depth
        ('"' :: (inner ++ v), j)
      else
        let (v, j) := scanCS inp fuel (i + 1) depth
        (c :: v, j)
    else ([], i)

/-- lexer.ts `readCommandSubstitution`: `i` is at the `$` of `$(`. -/
def readCommandSubstitution (inp : Str) (i : Nat) : (Str × Nat) :=
  scanCS inp (inp.length + 1) (i + 2) 1

/-- Break condition of `readUnquotedSegment` at a `$` (lines 213-216). -/
def dollarBreak (inp : Str) (i : Nat) : Bool :=
  cAt inp i = '$' && decide (i + 1 < inp.length) &&
    (cAt inp (i + 1) = '(' || cAt inp (i + 1) = '\'' || cAt inp (i + 1) = lBrace ||
     isVarStart (cAt inp (i + 1)) || isSpecialVar (cAt inp (i + 1)))

/-- lexer.ts `readUnquotedSegment`: both phases of the source (plain slice,
then escape-accumulating) share these break conditions and this behaviour,
so they are rendered as one loop. -/
def scanUnq (inp : Str) : Nat → Nat → (Str × Nat)
  | 0, i => ([], i)
  | fuel + 1, i =>
    if i < inp.length then
      let c := cAt inp i
      if isMeta c then ([], i)
      else if c = '\'' || c = '"' then ([], i)
      else if dollarBreak inp i then ([], i)
      else if c = '\\' then
        -- skip backslash; take the next char unless it is a newline;
        -- a backslash-newline is a line continuation (both consumed)
        let i1 := i + 1
        if i1 < inp.length && !(cAt inp i1 = '\n') then
          let i2 := i1 + 1
          let i3 := if i2 < inp.length && cAt inp i2 = '\n' then i2 + 1 else i2
          let (v, j) := scanUnq inp fuel i3
          (cAt inp i1 :: v, j)
        else
          let i2 := if i1 < inp.length && cAt inp i1 = '\n' then i1 + 1 else i1
          let (v, j) := scanUnq inp fuel i2
          (v, j)
      else
        let (v, j) := scanUnq inp fuel (i + 1)
        (c :: v, j)
    else ([], i)

/-- lexer.ts `readUnquotedSegment`. -/
def readUnquotedSegment (inp : Str) (i : Nat) : (Str × Nat) :=
  scanUnq inp (inp.length + 1) i

/-- State accumulated by `readWord`. -/
structure WordAcc where
  value : Str
  hasSQ : Bool := false
  hasDQ : Bool := false
  hasDSQ : Bool := false
deriving Repr

/-- lexer.ts `readWord` main loop over concatenated segments. -/
def scanWord (inp : Str) : Nat → Nat → WordAcc → (WordAcc × Nat)
  | 0, i, acc => (acc, i)
  | fuel + 1, i, acc =>
    if i < inp.length then
      let c := cAt inp i
      if isMeta c then (acc, i)
      else if c = '\'' then
        -- the source's two branches here (lines 263-277) have identical bodies
        let (content, j) := readSingleQuoted inp i
        scanWord inp fuel j { acc with value := acc.value ++ content, hasSQ := true }
      else if c = '"' then
        let (content, j) := readDoubleQuoted inp i
        scanWord inp fuel j { acc with value := acc.value ++ content, hasDQ := true }
      else if c = '$' && decide (i + 1 < inp.length) && cAt inp (i + 1) = '\'' then
        let (content, j) := readDollarSingleQuoted inp i
        scanWord inp fuel j { acc with value := acc.value ++ content, hasDSQ := true }
      else if c = '$' && decide (i + 1 < inp.length) && cAt inp (i + 1) = '(' then
        let (cmd, j) := readCommandSubstitution inp i
        scanWord inp fuel j { acc with value := acc.value ++ (str "$(" ++ cmd ++ str ")") }
      else if c = '$' && decide (i + 1 < inp.length) && cAt inp (i + 1) = lBrace then
        let (name, j0) := scanSQ' inp (inp.length + 1) (i + 2)
        let j := if j0 < inp.length then j0 + 1 else j0
        scanWord inp fuel j
          { acc with value := acc.value ++ ('$' :: lBrace :: name ++ [rBrace]) }
      else if c = '$' && decide (i + 1 < inp.length) &&
          (isVarStart (cAt inp (i + 1)) || isSpecialVar (cAt inp (i + 1))) then
        let next := cAt inp (i + 1)
        if isSpecialVar next && !isVarStart next then
          scanWord inp fuel (i + 2) { acc with value := acc.value ++ ['$', next] }
        else
          let (name, j) := takeVarBody inp (inp.length + 1) (i + 1)
          scanWord inp fuel j { acc with value := acc.value ++ ('$' :: name) }
      else
        let (seg, j) := readUnquotedSegment inp i
        if seg.isEmpty && decide (i < inp.length) && !isMeta (cAt inp i) then
          scanWord inp fuel (i + 1) { acc with value := acc.value ++ [cAt inp i] }
        else if seg.isEmpty then (acc, i)
        else scanWord inp fuel j { acc with value := acc.value ++ seg }
    else (acc, i)
where
  /-- Scan to the closing `}` of `${NAME}` (lines 305-314); position is left
  at the brace. -/
  scanSQ' (inp : Str) : Nat → Nat → (Str × Nat)
    | 0, i => ([], i)
    | fuel + 1, i =>
      if i < inp.length && !(cAt inp i = rBrace) then
        let (v, j) := scanSQ' inp fuel (i + 1)
        (cAt inp i :: v, j)
      else ([], i)
  /-- Run of VAR_BODY characters (lines 322-324). -/
  takeVarBody (inp : Str) : Nat → Nat → (Str × Nat)
    | 0, i => ([], i)
    | fuel + 1, i =>
      if i < inp.length && isVarBody (cAt inp i) then
        let (v, j) := takeVarBody inp fuel (i + 1)
        (cAt inp i :: v, j)
      else ([], i)

/-- lexer.ts `readWord`: the token subtype records which quoting kinds were
seen, with dollar-single taking precedence, then single (only when no double
was seen), then double. -/
def readWord (inp : Str) (i : Nat) : (Token × Nat) :=
  let (acc, j) := scanWord inp (inp.length + 1) i ⟨[], false, false, false⟩
  let ty :=
    if acc.hasDSQ then TokTy.dollarSingleQuoted
    else if acc.hasSQ && !acc.hasDQ then TokTy.singleQuoted
    else if acc.hasDQ then TokTy.doubleQuoted
    else TokTy.word
  (tok ty acc.value, j)

/-- Skip spaces and tabs. -/
def skipWs (inp : Str) : Nat → Nat → Nat
  | 0, i => i
  | fuel + 1, i =>
    if i < inp.length && (cAt inp i = ' ' || cAt inp i = '\t') then
      skipWs inp fuel (i + 1)
    else i

/-- Scan to the next newline (for comments, heredoc header). -/
def skipToNL (inp : Str) : Nat → Nat → Nat
  | 0, i => i
  | fuel + 1, i =>
    if i < inp.length && !(cAt inp i = '\n') then skipToNL inp fuel (i + 1)
    else i

/-- Run of decimal digits starting at `i`. -/
def takeDigits (inp : Str) : Nat → Nat → (List Char × Nat)
  | 0, i => ([], i)
  | fuel + 1, i =>
    if i < inp.length && isDigit (cAt inp i) then
      let (ds, j) := takeDigits inp fuel (i + 1)
      (cAt inp i :: ds, j)
    else ([], i)

/-- One line of a heredoc body: characters up to (not including) the next
newline, and the position after that newline (or end of input). -/
def heredocLine (inp : Str) (i : Nat) : (Str × Nat) :=
  let j := skipToNL inp (inp.length + 1) i
  (extract i j, if j < inp.length then j + 1 else j)
where
  extract (a b : Nat) : Str := (inp.drop a).take (b - a)

/-- Heredoc body loop (lexer.ts lines 505-515): read lines until one equals
the delimiter (after optional leading-tab stripping). -/
def heredocBody (inp : Str) (stripTabs : Bool) (delim : Str) :
    Nat → Nat → (Str × Nat)
  | 0, i => ([], i)
  | fuel + 1, i =>
    if i < inp.length then
      let (line, j) := heredocLine inp i
      let trimmed := if stripTabs then line.dropWhile (· = '\t') else line
      if trimmed = delim then ([], j)
      else
        let (rest, k) := heredocBody inp stripTabs delim fuel j
        (line ++ '\n' :: rest, k)
    else ([], i)

/-- Heredoc delimiter (lexer.ts lines 477-498): optionally quoted. -/
def heredocDelim (inp : Str) (i : Nat) : (Str × Bool × Nat) :=
  if i < inp.length && cAt inp i = '\'' then
    let (d, j) := readSingleQuoted inp i
    (d, true, j)
  else if i < inp.length && cAt inp i = '"' then
    let (d, j0) := scanDQplain inp (inp.length + 1) (i + 1)
    (d, true, j0)
  else
    let (d, j) := takeToDelimEnd inp (inp.length + 1) i
    (d, false, j)
where
  /-- Plain scan to a closing double quote (no escapes here, lines 487-493). -/
  scanDQplain (inp : Str) : Nat → Nat → (Str × Nat)
    | 0, i => ([], i)
    | fuel + 1, i =>
      if i < inp.length && !(cAt inp i = '"') then
        let (v, j) := scanDQplain inp fuel (i + 1)
        (cAt inp i :: v, j)
      else ([], if i < inp.length then i + 1 else i)
  /-- Unquoted delimiter: up to newline, space or tab (lines 494-498). -/
  takeToDelimEnd (inp : Str) : Nat → Nat → (Str × Nat)
    | 0, i => ([], i)
    | fuel + 1, i =>
      if i < inp.length && !(cAt inp i = '\n') && !(cAt inp i = ' ') &&
          !(cAt inp i = '\t') then
        let (v, j) := takeToDelimEnd inp fuel (i + 1)
        (cAt inp i :: v, j)
      else ([], i)

/-- Newline token dedup test (lexer.ts lines 370-374): the previous token
must not already be a separator.  `last` is the most recent token. -/
def newlineWanted (last : Option Token) : Bool :=
  match last with
  | none => false
  | some t =>
    !(t.ty = TokTy.semi || t.ty = TokTy.andTk || t.ty = TokTy.orTk ||
      t.ty = TokTy.pipe || t.ty = TokTy.newline)

/-- Main lexer loop (lexer.ts lines 351-565).  `acc` holds the emitted
tokens in reverse order (the source appends; reversal is by `lex` below).
Every iteration advances `i`, so the fuel of `input.length + 1` supplied by
`lex` is never exhausted. -/
def lexLoop (inp : Str) : Nat → Nat → List Token → List Token
  | 0, _, acc => acc
  | fuel + 1, i, acc =>
    if i < inp.length then
      let i := skipWs inp (inp.length + 1) i
      if i < inp.length then
        let c := cAt inp i
        if c = '#' then
          lexLoop inp fuel (skipToNL inp (inp.length + 1) i) acc
        else if c = '\n' then
          if newlineWanted acc.head? then
            lexLoop inp fuel (i + 1) (tok .newline (str "\n") :: acc)
          else lexLoop inp fuel (i + 1) acc
        else if c = '|' then
          if i + 1 < inp.length && cAt inp (i + 1) = '|' then
            lexLoop inp fuel (i + 2) (tok .orTk (str "||") :: acc)
          else lexLoop inp fuel (i + 1) (tok .pipe (str "|") :: acc)
        else if c = '&' then
          if i + 1 < inp.length && cAt inp (i + 1) = '&' then
            lexLoop inp fuel (i + 2) (tok .andTk (str "&&") :: acc)
          else lexLoop inp fuel (i + 1) (tok .background (str "&") :: acc)
        else if c = ';' then
          lexLoop inp fuel (i + 1) (tok .semi (str ";") :: acc)
        else if c = '(' then
          lexLoop inp fuel (i + 1) (tok .leftParen (str "(") :: acc)
        else if c = ')' then
          lexLoop inp fuel (i + 1) (tok .rightParen (str ")") :: acc)
        else if isDigit c && decide (i + 1 < inp.length) &&
            (cAt inp (i + 1) = '>' || cAt inp (i + 1) = '<') then
          -- fd-prefixed redirects (lines 419-458)
          let fd := digitVal c
          let opPos := i + 1
          if cAt inp opPos = '>' && decide (opPos + 1 < inp.length) &&
              cAt inp (opPos + 1) = '>' then
            let j := skipWs inp (inp.length + 1) (opPos + 2)
            let (target, k) := readWord inp j
            lexLoop inp fuel k
              (target :: { ty := .redirectAppend, value := str ">>", fd := some fd } :: acc)
          else if cAt inp opPos = '>' && decide (opPos + 1 < inp.length) &&
              cAt inp (opPos + 1) = '&' then
            let (ds, k) := takeDigits inp (inp.length + 1) (opPos + 2)
            -- JS parseInt of an empty digit run is NaN; that degenerate shape
            -- (`2>&` at end of input) is modelled as 0 here
            lexLoop inp fuel k
              ({ ty := .redirectOut, value := str ">", fd := some fd,
                 targetFd := some (digitsToNat 10 ds) } :: acc)
          else if cAt inp opPos = '>' then
            let j := skipWs inp (inp.length + 1) (opPos + 1)
            let (target, k) := readWord inp j
            lexLoop inp fuel k
              (target :: { ty := .redirectOut, value := str ">", fd := some fd } :: acc)
          else
            let j := skipWs inp (inp.length + 1) (opPos + 1)
            let (target, k) := readWord inp j
            lexLoop inp fuel k
              (target :: { ty := .redirectIn, value := str "<", fd := some fd } :: acc)
        else if c = '<' && decide (i + 1 < inp.length) && cAt inp (i + 1) = '<' then
          if i + 2 < inp.length && cAt inp (i + 2) = '<' then
            -- here-string (lines 462-469)
            let j := skipWs inp (inp.length + 1) (i + 3)
            let (target, k) := readWord inp j
            lexLoop inp fuel k (target :: tok .hereString (str "<<<") :: acc)
          else
            -- heredoc (lines 471-524)
            let p0 := i + 2
            let stripTabs := p0 < inp.length && cAt inp p0 = '-'
            let p1 := if stripTabs then p0 + 1 else p0
            let p2 := skipWs inp (inp.length + 1) p1
            let (delim, quoted, p3) := heredocDelim inp p2
            let p4 := skipToNL inp (inp.length + 1) p3
            let p5 := if p4 < inp.length then p4 + 1 else p4
            let (body0, p6) := heredocBody inp stripTabs delim (inp.length + 1) p5
            let body := if body0.getLast? = some '\n' then body0.dropLast else body0
            lexLoop inp fuel p6
              ({ ty := .hereDoc, value := body, fd := some (if quoted then 0 else 1) } :: acc)
        else if c = '>' then
          if i + 1 < inp.length && cAt inp (i + 1) = '>' then
            let j := skipWs inp (inp.length + 1) (i + 2)
            let (target, k) := readWord inp j
            lexLoop inp fuel k (target :: tok .redirectAppend (str ">>") :: acc)
          else if i + 1 < inp.length && cAt inp (i + 1) = '&' then
            let (ds, k) := takeDigits inp (inp.length + 1) (i + 2)
            lexLoop inp fuel k
              ({ ty := .redirectOut, value := str ">", fd := some 1,
                 targetFd := some (digitsToNat 10 ds) } :: acc)
          else
            let j := skipWs inp (inp.length + 1) (i + 1)
            let (target, k) := readWord inp j
            lexLoop inp fuel k (target :: tok .redirectOut (str ">") :: acc)
        else if c = '<' then
          let j := skipWs inp (inp.length + 1) (i + 1)
          let (target, k) := readWord inp j
          lexLoop inp fuel k (target :: tok .redirectIn (str "<") :: acc)
        else
          let (word, k) := readWord inp i
          if word.value.isEmpty then lexLoop inp fuel k acc
          else lexLoop inp fuel k (word :: acc)
      else acc
    else acc

/-- lexer.ts `lex`: token stream, always ending in EOF. -/
def lex (inp : Str) : List Token :=
  (lexLoop inp (inp.length + 1) 0 []).reverse ++ [tok .eofTk []]

-- ===================================================================
-- AST (src/types.ts)
-- ===================================================================

/-- Quoting tag on a Literal word part. -/
inductive Quoting where
  | unquoted | single | double | dollarSingle
deriving DecidableEq, Repr

/-- Word parts (src/types.ts `WordPart`). -/
inductive WordPart where
  | literal (value : Str) (quoting : Quoting)
  | var (name : Str) (braced : Bool)
  | commandSub (command : Str)
  | glob (pattern : Str)
deriving DecidableEq, Repr

/-- A word: ordered parts (src/types.ts `WordNode`). -/
structure WordNode where
  parts : List WordPart
deriving DecidableEq, Repr

/-- `VAR=value` (src/types.ts `AssignmentNode`). -/
structure AssignmentNode where
  name : Str
  value : Option WordNode
deriving DecidableEq, Repr

/-- Redirect operators `>`, `>>`, `<`, `<<<`. -/
inductive RedirOp where
  | rOut | rAppend | rIn | rHereString
deriving DecidableEq, Repr

/-- src/types.ts `RedirectNode`. -/
structure RedirectNode where
  op : RedirOp
  fd : Nat
  target : WordNode
  targetFd : Option Nat := none
deriving DecidableEq, Repr

/-- src/types.ts `SimpleCommandNode`. -/
structure SimpleCmd where
  assignments : List AssignmentNode
  name : Option WordNode
  args : List WordNode
  redirects : List RedirectNode
deriving DecidableEq, Repr

/-- Logical operators `&&`, `||`, `;`. -/
inductive LogicalOp where
  | andOp | orOp | semiOp
deriving DecidableEq, Repr

mutual
/-- src/types.ts `StatementNode`; a script is a `List StmtNode`. -/
inductive StmtNode where
  | pipeline (commands : List CmdNode) (negated : Bool)
  | logical (op : LogicalOp) (l r : StmtNode)
  | assignStmt (assignments : List AssignmentNode)
/-- src/types.ts `CommandNode` (`SubshellNode.body` is the script list). -/
inductive CmdNode where
  | simple (c : SimpleCmd)
  | subshell (body : List StmtNode) (redirects : List RedirectNode)
end

-- ===================================================================
-- PARSER (src/parser.ts, given as src/unnamed/part_005)
-- ===================================================================

/-- Flush the pending literal run (parser `flushLiteral`). -/
def flushLit (q : Quoting) (lit : Str) (parts : List WordPart) : List WordPart :=
  if lit.isEmpty then parts else parts ++ [.literal lit q]

/-- Command-substitution scan of `parseWordParts` (part_005 lines 90-105):
paren-depth balanced; returns the inner command and the rest after the
closing paren. -/
def pwpCmdSub : Nat → Str → (Str × Str)
  | _, [] => ([], [])
  | depth, c :: cs =>
    if c = '(' then
      let (v, rest) := pwpCmdSub (depth + 1) cs
      ('(' :: v, rest)
    else if c = ')' then
      if depth = 1 then ([], cs)
      else
        let (v, rest) := pwpCmdSub (depth - 1) cs
        (')' :: v, rest)
    else
      let (v, rest) := pwpCmdSub depth cs
      (c :: v, rest)

/-- Scan loop of `parseWordParts` (part_005 lines 80-150), on the remaining
characters, carrying the pending literal run. -/
def pwpScan (q : Quoting) : Nat → Str → Str → List WordPart → List WordPart
  | 0, _, lit, parts => flushLit q lit parts
  | _ + 1, [], lit, parts => flushLit q lit parts
  | fuel + 1, c :: rest, lit, parts =>
    if c = '$' then
      match rest with
      | [] => pwpScan q fuel [] (lit ++ ['$']) parts  -- `$` at the very end
      | n :: rest' =>
        if n = '(' then
          let (cmd, after) := pwpCmdSub 1 rest'
          pwpScan q fuel after [] (flushLit q lit parts ++ [.commandSub cmd])
        else if n = lBrace then
          let name := rest'.takeWhile (fun ch => !(ch = rBrace))
          let after := (rest'.dropWhile (fun ch => !(ch = rBrace))).drop 1
          pwpScan q fuel after [] (flushLit q lit parts ++ [.var name true])
        else if isVarStart n then
          let name := (n :: rest').takeWhile isVarBody
          let after := (n :: rest').dropWhile isVarBody
          pwpScan q fuel after [] (flushLit q lit parts ++ [.var name false])
        else if n = '?' || n = '#' || n = '!' || n = '$' || n = '@' || isDigit n then
          pwpScan q fuel rest' [] (flushLit q lit parts ++ [.var [n] false])
        else
          pwpScan q fuel rest (lit ++ ['$']) parts  -- just a literal `$`
    else
      pwpScan q fuel rest (lit ++ [c]) parts

/-- parser `parseWordParts`: split a word token's payload into parts. -/
def parseWordParts (value : Str) (ty : TokTy) : List WordPart :=
  if ty = .singleQuoted then [.literal value .single]
  else if ty = .dollarSingleQuoted then [.literal value .dollarSingle]
  else
    let q := if ty = .doubleQuoted then Quoting.double else Quoting.unquoted
    if !value.contains '$' then [.literal value q]  -- fast path
    else
      let parts := pwpScan q (value.length + 1) value [] []
      if parts.isEmpty then [.literal [] q] else parts

/-- parser `parseWord`. -/
def parseWord (t : Token) : WordNode := ⟨parseWordParts t.value t.ty⟩

/-- The EOF sentinel `peek`/`advance` fall back to. -/
def eofTok : Token := tok .eofTk []

/-- parser `peek` (with `pos` explicit). -/
def peekT (toks : List Token) (pos : Nat) : Token := toks.getD pos eofTok

/-- parser `isAtEnd`. -/
def atEndT (toks : List Token) (pos : Nat) : Bool :=
  pos ≥ toks.length || (peekT toks pos).ty = .eofTk

/-- parser `isSeparator`. -/
def isSeparatorT (t : Token) : Bool := t.ty = .semi || t.ty = .newline

/-- parser `isOperator`. -/
def isOperatorT (t : Token) : Bool :=
  t.ty = .andTk || t.ty = .orTk || isSeparatorT t

/-- parser `isWordToken`. -/
def isWordTok (t : Token) : Bool :=
  t.ty = .word || t.ty = .singleQuoted || t.ty = .doubleQuoted ||
  t.ty = .dollarSingleQuoted

/-- parser `isRedirectToken`. -/
def isRedirectTok (t : Token) : Bool :=
  t.ty = .redirectOut || t.ty = .redirectAppend || t.ty = .redirectIn ||
  t.ty = .hereString

/-- parser `isAssignment`: a Word token shaped `NAME=...`. -/
def isAssignmentTok (t : Token) : Bool :=
  t.ty = .word &&
    match t.value.findIdx? (· = '=') with
    | none => false
    | some 0 => false
    | some eq =>
      let name := t.value.take eq
      match name with
      | [] => false
      | c0 :: restName => isVarStart c0 && restName.all isVarBody

/-- parser `parseAssignment`. -/
def parseAssignmentTok (t : Token) : AssignmentNode :=
  let eq := (t.value.findIdx? (· = '=')).getD 0
  let name := t.value.take eq
  let rawValue := t.value.drop (eq + 1)
  { name := name,
    value := if rawValue.isEmpty then none else some (parseWord { t with value := rawValue }) }

/-- parser `skipNewlines`. -/
def skipNLs (toks : List Token) : Nat → Nat → Nat
  | 0, pos => pos
  | fuel + 1, pos =>
    if (peekT toks pos).ty = .newline then skipNLs toks fuel (pos + 1) else pos

/-- Decimal rendering of a natural number (for `&M` targets, fd prefixes,
`$args[N]`). -/
def natToDec (n : Nat) : Str := go (n + 1) n
where
  go : Nat → Nat → Str
    | 0, _ => []
    | fuel + 1, m =>
      if m < 10 then [Char.ofNat (48 + m)]
      else go fuel (m / 10) ++ [Char.ofNat (48 + m % 10)]

/-- parser `parseRedirect`: consumes the redirect token and, unless it is an
fd-to-fd form, the following target word token. -/
def parseRedirect (toks : List Token) (pos : Nat) : (RedirectNode × Nat) :=
  let t := peekT toks pos
  let fd := t.fd.getD (if t.ty = .redirectIn then 0 else 1)
  match t.targetFd with
  | some m =>
    ({ op := .rOut, fd := fd,
       target := ⟨[.literal ('&' :: natToDec m) .unquoted]⟩,
       targetFd := some m }, pos + 1)
  | none =>
    let op : RedirOp :=
      match t.ty with
      | .redirectOut => .rOut
      | .redirectAppend => .rAppend
      | .redirectIn => .rIn
      | .hereString => .rHereString
      | _ => .rOut
    let targetTok := peekT toks (pos + 1)
    ({ op := op, fd := fd, target := parseWord targetTok }, pos + 2)

/-- Leading-assignments loop of `parseSimpleCommand` (part_005 lines 236-238). -/
def takeAssignments (toks : List Token) : Nat → Nat → (List AssignmentNode × Nat)
  | 0, pos => ([], pos)
  | fuel + 1, pos =>
    if isAssignmentTok (peekT toks pos) then
      let a := parseAssignmentTok (peekT toks pos)
      let (rest, pos') := takeAssignments toks fuel (pos + 1)
      (a :: rest, pos')
    else ([], pos)

/-- Argument/redirect loop of `parseSimpleCommand` (part_005 lines 246-272). -/
def simpleLoop (toks : List Token) :
    Nat → Nat → List WordNode → List RedirectNode → (List WordNode × List RedirectNode × Nat)
  | 0, pos, args, reds => (args, reds, pos)
  | fuel + 1, pos, args, reds =>
    if atEndT toks pos then (args, reds, pos)
    else
      let t := peekT toks pos
      if isRedirectTok t then
        let (r, pos') := parseRedirect toks pos
        simpleLoop toks fuel pos' args (reds ++ [r])
      else if t.ty = .hereDoc then
        let isQuoted := t.fd = some 0
        let parts : List WordPart :=
          if isQuoted then [.literal t.value .single]
          else parseWordParts t.value .word
        simpleLoop toks fuel (pos + 1) args
          (reds ++ [{ op := .rIn, fd := 0, target := ⟨parts⟩ }])
      else if isWordTok t then
        simpleLoop toks fuel (pos + 1) (args ++ [parseWord t]) reds
      else (args, reds, pos)

/-- parser `parseSimpleCommand`. -/
def parseSimpleCommand (toks : List Token) (pos : Nat) : (SimpleCmd × Nat) :=
  let (assigns, pos1) := takeAssignments toks (toks.length + 1) pos
  let (name, pos2) :=
    if isWordTok (peekT toks pos1) then (some (parseWord (peekT toks pos1)), pos1 + 1)
    else (none, pos1)
  let (args, reds, pos3) := simpleLoop toks (toks.length + 1) pos2 [] []
  ({ assignments := assigns, name := name, args := args, redirects := reds }, pos3)

/-- Parse results: success with new position, a raised error (parser
`throw`), or exhausted fuel — the latter models divergence of the original
program, which has no fuel. -/
inductive PRes (α : Type) where
  | ok (val : α) (pos : Nat)
  | err (msg : Str)
  | out

/-- String name of a token type, as TypeScript's string enum prints it in
the `expect` error message. -/
def tokTyName : TokTy → Str
  | .word => str "Word"
  | .singleQuoted => str "SingleQuoted"
  | .doubleQuoted => str "DoubleQuoted"
  | .dollarSingleQuoted => str "DollarSingleQuoted"
  | .pipe => str "Pipe"
  | .andTk => str "And"
  | .orTk => str "Or"
  | .semi => str "Semi"
  | .newline => str "Newline"
  | .background => str "Background"
  | .redirectOut => str "RedirectOut"
  | .redirectAppend => str "RedirectAppend"
  | .redirectIn => str "RedirectIn"
  | .hereDoc => str "HereDoc"
  | .hereString => str "HereString"
  | .leftParen => str "LeftParen"
  | .rightParen => str "RightParen"
  | .eofTk => str "EOF"

/-- parser `expect` failure message:
`Expected <type> but got <type> ("<value>")`. -/
def expectMsg (want : TokTy) (got : Token) : Str :=
  str "Expected " ++ tokTyName want ++ str " but got " ++ tokTyName got.ty ++
  str " (\"" ++ got.value ++ str "\")"

/-- Subshell-redirect loop of `parseCommand` (part_005 lines 284-287). -/
def subshellRedirs (toks : List Token) :
    Nat → Nat → List RedirectNode → (List RedirectNode × Nat)
  | 0, pos, reds => (reds, pos)
  | fuel + 1, pos, reds =>
    if isRedirectTok (peekT toks pos) then
      let (r, pos') := parseRedirect toks pos
      subshellRedirs toks fuel pos' (reds ++ [r])
    else (reds, pos)

/-- parser `parseCommand`, parameterized by the script entry (`pS`) used for
a subshell body — the caller supplies it at one fuel step down. -/
def parseCommandG (pS : Nat → PRes (List StmtNode)) (toks : List Token)
    (pos : Nat) : PRes CmdNode :=
  if (peekT toks pos).ty = .leftParen then
    let pos1 := skipNLs toks (toks.length + 1) (pos + 1)
    match pS pos1 with
    | .ok body pos2 =>
      let pos3 := skipNLs toks (toks.length + 1) pos2
      let t := peekT toks pos3
      if t.ty = .rightParen then
        let (reds, pos4) := subshellRedirs toks (toks.length + 1) (pos3 + 1) []
        .ok (.subshell body reds) pos4
      else .err (expectMsg .rightParen t)
    | .err m => .err m
    | .out => .out
  else
    let (sc, pos') := parseSimpleCommand toks pos
    .ok (.simple sc) pos'

/-- `|`-loop of `parsePipeline` (part_005 lines 298-302). -/
def pipelineLoopG (pS : Nat → PRes (List StmtNode)) (toks : List Token) :
    Nat → Nat → List CmdNode → PRes (List CmdNode)
  | 0, pos, cmds => .ok cmds pos
  | fuel + 1, pos, cmds =>
    if (peekT toks pos).ty = .pipe then
      let pos1 := skipNLs toks (toks.length + 1) (pos + 1)
      match parseCommandG pS toks pos1 with
      | .ok c pos2 => pipelineLoopG pS toks fuel pos2 (cmds ++ [c])
      | .err m => .err m
      | .out => .out
    else .ok cmds pos

/-- parser `parsePipeline`. -/
def parsePipelineG (pS : Nat → PRes (List StmtNode)) (toks : List Token)
    (pos : Nat) : PRes StmtNode :=
  let negated := (peekT toks pos).value = str "!" && (peekT toks pos).ty = .word
  let pos0 := if negated then pos + 1 else pos
  match parseCommandG pS toks pos0 with
  | .ok c pos1 =>
    match pipelineLoopG pS toks (toks.length + 1) pos1 [c] with
    | .ok cmds pos2 => .ok (.pipeline cmds negated) pos2
    | .err m => .err m
    | .out => .out
  | .err m => .err m
  | .out => .out

/-- `&&`/`||`-loop of `parseAndOr` (part_005 lines 309-315). -/
def andOrLoopG (pS : Nat → PRes (List StmtNode)) (toks : List Token) :
    Nat → Nat → StmtNode → PRes StmtNode
  | 0, pos, left => .ok left pos
  | fuel + 1, pos, left =>
    let t := peekT toks pos
    if t.ty = .andTk || t.ty = .orTk then
      let op : LogicalOp := if t.ty = .andTk then .andOp else .orOp
      let pos1 := skipNLs toks (toks.length + 1) (pos + 1)
      match parsePipelineG pS toks pos1 with
      | .ok right pos2 => andOrLoopG pS toks fuel pos2 (.logical op left right)
      | .err m => .err m
      | .out => .out
    else .ok left pos

/-- parser `parseAndOr`. -/
def parseAndOrG (pS : Nat → PRes (List StmtNode)) (toks : List Token)
    (pos : Nat) : PRes StmtNode :=
  match parsePipelineG pS toks pos with
  | .ok left pos1 => andOrLoopG pS toks (toks.length + 1) pos1 left
  | .err m => .err m
  | .out => .out

/-- Separator loop of `parseList` (part_005 lines 322-332). -/
def listLoopG (pS : Nat → PRes (List StmtNode)) (toks : List Token) :
    Nat → Nat → StmtNode → PRes StmtNode
  | 0, pos, left => .ok left pos
  | fuel + 1, pos, left =>
    if isSeparatorT (peekT toks pos) then
      let pos1 := skipNLs toks (toks.length + 1) (pos + 1)
      if atEndT toks pos1 || (peekT toks pos1).ty = .rightParen then .ok left pos1
      else if isOperatorT (peekT toks pos1) || atEndT toks pos1 then .ok left pos1
      else
        match parseAndOrG pS toks pos1 with
        | .ok right pos2 => listLoopG pS toks fuel pos2 (.logical .semiOp left right)
        | .err m => .err m
        | .out => .out
    else .ok left pos

/-- parser `parseList`. -/
def parseListG (pS : Nat → PRes (List StmtNode)) (toks : List Token)
    (pos : Nat) : PRes StmtNode :=
  match parseAndOrG pS toks pos with
  | .ok left pos1 => listLoopG pS toks (toks.length + 1) pos1 left
  | .err m => .err m
  | .out => .out

/-- Bare-assignment lookahead of `parseScript` (part_005 lines 343-346). -/
def bareAssignAhead (toks : List Token) (pos : Nat) : Bool :=
  let la := lookAhead (toks.length + 1) pos
  la ≥ toks.length || !isWordTok (peekT toks la) ||
    isSeparatorT (peekT toks la) || (peekT toks la).ty = .eofTk
where
  lookAhead : Nat → Nat → Nat
    | 0, p => p
    | fuel + 1, p =>
      if p < toks.length && isAssignmentTok (peekT toks p) then
        lookAhead fuel (p + 1)
      else p

/-- Trailing separator skip shared by both branches of the `parseScript`
loop (part_005 lines 354 and 361). -/
def sepSkip (toks : List Token) : Nat → Nat → Nat
  | 0, pos => pos
  | fuel + 1, pos =>
    if isSeparatorT (peekT toks pos) then
      sepSkip toks fuel (skipNLs toks (toks.length + 1) (pos + 1))
    else pos

/-- The `parseScript` statement loop (part_005 lines 339-363).  The global
fuel decreases by one per iteration and per subshell re-entry; `.out` for
every fuel therefore models divergence of the JavaScript loop. -/
def scriptLoop (toks : List Token) : Nat → Nat → List StmtNode → PRes (List StmtNode)
  | 0, _, _ => .out
  | n + 1, pos, acc =>
    if atEndT toks pos || (peekT toks pos).ty = .rightParen then .ok acc pos
    else if isAssignmentTok (peekT toks pos) && bareAssignAhead toks pos then
      let (assigns, pos1) := takeAssignments toks (toks.length + 1) pos
      let pos2 := skipNLs toks (toks.length + 1) pos1
      let pos3 := sepSkip toks (toks.length + 1) pos2
      scriptLoop toks n pos3 (acc ++ [.assignStmt assigns])
    else
      match parseListG (fun p => scriptLoop toks n (skipNLs toks (toks.length + 1) p) []) toks pos with
      | .ok st pos1 =>
        let pos2 := skipNLs toks (toks.length + 1) pos1
        let pos3 := sepSkip toks (toks.length + 1) pos2
        scriptLoop toks n pos3 (acc ++ [st])
      | .err m => .err m
      | .out => .out

/-- parser `parse` (entry point): `parseScript` from position 0. -/
def parseTop (fuel : Nat) (toks : List Token) : PRes (List StmtNode) :=
  scriptLoop toks fuel (skipNLs toks (toks.length + 1) 0) []

-- ===================================================================
-- TRANSFORMER: context and pure helpers (src/transformer.ts)
-- ===================================================================

/-- The tool-availability record `{rg, fd, curl, jq}`. -/
structure Tools where
  rg : Bool
  fd : Bool
  curl : Bool
  jq : Bool
deriving DecidableEq, Repr

/-- src/types.ts `TransformContext` (the `options` field is never consulted
by the translation path, so only the injected tools are carried). -/
structure Ctx where
  tools : Tools
  warnings : List Str
  unsupported : List Str
  usedFallbacks : Bool
deriving DecidableEq, Repr

/-- Fresh context as built by `transpile` / `transpileWithMeta`. -/
def ctx0 (tools : Tools) : Ctx := ⟨tools, [], [], false⟩

/-- transformer `escapePsSingleQuote`: double every single quote. -/
def escapePsSingleQuote : Str → Str
  | [] => []
  | c :: cs =>
    if c = '\'' then '\'' :: '\'' :: escapePsSingleQuote cs
    else c :: escapePsSingleQuote cs

/-- transformer `escapePsDoubleQuote`: backtick-escape `` ` ``, `$`, `"`.
The source applies three global replaces over disjoint character classes
whose inserted backticks are not reprocessed, which per character is this. -/
def escapePsDoubleQuote : Str → Str
  | [] => []
  | c :: cs =>
    if c = bTick then bTick :: bTick :: escapePsDoubleQuote cs
    else if c = '$' then bTick :: '$' :: escapePsDoubleQuote cs
    else if c = '"' then bTick :: '"' :: escapePsDoubleQuote cs
    else c :: escapePsDoubleQuote cs

/-- transformer SPECIAL_VARS table. -/
def specialVars (name : Str) : Option Str :=
  if name = str "HOME" then some (str "env:USERPROFILE")
  else if name = str "USER" then some (str "env:USERNAME")
  else if name = str "SHELL" then some (str "env:ComSpec")
  else if name = str "TMPDIR" then some (str "env:TEMP")
  else if name = str "HOSTNAME" then some (str "env:COMPUTERNAME")
  else if name = str "LANG" then some (str "env:LANG")
  else if name = str "PWD" then some (str "PWD")
  else if name = str "OLDPWD" then some (str "OLDPWD")
  else if name = str "RANDOM" then some (str "(Get-Random)")
  else if name = str "SECONDS" then
    some (str "([int](New-TimeSpan -Start $script:StartTime).TotalSeconds)")
  else none

/-- transformer SPECIAL_SINGLE_CHAR_VARS table. -/
def singleCharVars (c : Char) : Option Str :=
  if c = '?' then some (str "LASTEXITCODE")
  else if c = '$' then some (str "PID")
  else if c = '!' then some (str "PID")
  else if c = '#' then some (str "args.Count")
  else if c = '@' then some (str "args")
  else if c = '0' then some (str "MyInvocation.MyCommand.Name")
  else none

/-- Signed decimal rendering (JS number printing for the `$args[N-1]`
index). -/
def intToDec (n : Int) : Str :=
  if n < 0 then '-' :: natToDec n.natAbs else natToDec n.toNat

/-- transformer `translateVarName`. -/
def translateVarName (name : Str) (braced : Bool) : Str :=
  match name with
  | [c] =>
    match singleCharVars c with
    | some m => '$' :: m
    | none => numericOrNamed name braced
  | _ => numericOrNamed name braced
where
  numericOrNamed (name : Str) (braced : Bool) : Str :=
    if !name.isEmpty && name.all isDigit && !(name = str "0") then
      str "$args[" ++ intToDec ((digitsToNat 10 name : Int) - 1) ++ str "]"
    else
      match specialVars name with
      | some mapped =>
        if mapped.head? = some '(' then mapped else '$' :: mapped
      | none =>
        if braced then '$' :: lBrace :: (str "env:" ++ name) ++ [rBrace]
        else str "$env:" ++ name

/-- Safe-unquoted character class of `translateLiteral`
(`[a-zA-Z0-9_.\/:\-\*\?=@%]`). -/
def isSafeUnqChar (c : Char) : Bool :=
  ('a' ≤ c && c ≤ 'z') || ('A' ≤ c && c ≤ 'Z') || ('0' ≤ c && c ≤ '9') ||
  c = '_' || c = '.' || c = '/' || c = ':' || c = '-' || c = '*' ||
  c = '?' || c = '=' || c = '@' || c = '%'

/-- JS `/[\x00-\x1f\x7f]/` control-character test. -/
def hasCtrlChar (s : Str) : Bool :=
  s.any (fun c => c.toNat < 32 || c.toNat = 127)

/-- Dollar-single rendering with PowerShell escapes of `translateLiteral`
(transformer lines 129-142). -/
def dsqChar (c : Char) : Str :=
  if c.toNat = 10 then [bTick, 'n']
  else if c.toNat = 13 then [bTick, 'r']
  else if c.toNat = 9 then [bTick, 't']
  else if c.toNat = 0 then [bTick, '0']
  else if c.toNat = 7 then [bTick, 'a']
  else if c.toNat = 8 then [bTick, 'b']
  else if c.toNat = 27 then [bTick, 'e']
  else if c.toNat < 32 || c.toNat = 127 then [bTick, '0']  -- approximate
  else escapePsDoubleQuote [c]

/-- transformer `translateLiteral` (pure: a literal never touches the
context). -/
def translateLiteral (value : Str) (quoting : Quoting) : Str :=
  match quoting with
  | .single => '\'' :: escapePsSingleQuote value ++ ['\'']
  | .dollarSingle =>
    if hasCtrlChar value then '"' :: value.flatMap dsqChar ++ ['"']
    else '\'' :: escapePsSingleQuote value ++ ['\'']
  | .double => '"' :: escapePsDoubleQuote value ++ ['"']
  | .unquoted =>
    if value.isEmpty then str "''"
    else if value = str "$null" || value = str "$true" || value = str "$false" then value
    else if value.all isSafeUnqChar then value
    else '\'' :: escapePsSingleQuote value ++ ['\'']

/-- transformer `translatePathInArgs`: `/tmp` rewriting on single-Literal
words (the quoting tag is not examined by the source). -/
def translatePathInArgs (w : WordNode) : WordNode :=
  match w.parts with
  | [.literal val _q] =>
    if val = str "/tmp" || val = str "/tmp/" then ⟨[.var (str "TEMP") false]⟩
    else if val.take 5 = str "/tmp/" then
      ⟨[.var (str "TEMP") false, .literal ('\\' :: val.drop 5) .unquoted]⟩
    else w
  | _ => w

/-- transformer `translatePath` (for redirect targets). -/
def translatePath (w : WordNode) : WordNode :=
  match w.parts with
  | [.literal val _q] =>
    if val = str "/dev/null" then ⟨[.literal (str "$null") .unquoted]⟩
    else if val = str "/dev/stdout" then ⟨[.literal (str "CON") .unquoted]⟩
    else if val = str "/dev/stderr" then ⟨[.literal (str "CON") .unquoted]⟩
    else if val = str "/tmp" || val = str "/tmp/" then ⟨[.var (str "TEMP") false]⟩
    else if val.take 5 = str "/tmp/" then
      ⟨[.var (str "TEMP") false, .literal ('\\' :: val.drop 5) .unquoted]⟩
    else w
  | _ => w

/-- transformer `wordToString`: raw string of a word, used for command-name
dispatch. -/
def wordToString (w : WordNode) : Str :=
  (w.parts.map fun p =>
    match p with
    | .literal v _ => v
    | .var n _ => '$' :: n
    | .commandSub c => str "$(" ++ c ++ str ")"
    | .glob pat => pat).flatten

-- ===================================================================
-- WORD TRANSLATION (src/transformer.ts), parameterized by the
-- command-substitution evaluator `cs` (tied to the whole pipeline with a
-- fuel by `csAt` below).  A result of `none` is exhausted fuel.
-- ===================================================================

/-- transformer `translateSinglePart`. -/
def translateSinglePart (cs : Str → Ctx → Option (Str × Ctx)) :
    WordPart → Ctx → Option (Str × Ctx)
  | .literal v q, ctx => some (translateLiteral v q, ctx)
  | .var n b, ctx => some (translateVarName n b, ctx)
  | .commandSub c, ctx => cs c ctx
  | .glob pat, ctx => some (pat, ctx)

/-- Compound-word double-quote rendering of one literal (transformer lines
187-200): dollar-single with control characters gets inline backtick
escapes covering `\n \r \t \0` only. -/
def compoundLiteral (value : Str) (quoting : Quoting) : Str :=
  if quoting = .dollarSingle && hasCtrlChar value then
    value.flatMap fun c =>
      if c.toNat = 10 then [bTick, 'n']
      else if c.toNat = 13 then [bTick, 'r']
      else if c.toNat = 9 then [bTick, 't']
      else if c.toNat = 0 then [bTick, '0']
      else escapePsDoubleQuote [c]
  else escapePsDoubleQuote value

/-- Inner fold of `translateCompoundWord`'s double-quote branch. -/
def compoundInner (cs : Str → Ctx → Option (Str × Ctx)) :
    List WordPart → Ctx → Option (Str × Ctx)
  | [], ctx => some ([], ctx)
  | p :: rest, ctx => do
    let (s, c1) ←
      match p with
      | .literal v q => some (compoundLiteral v q, ctx)
      | .var n b => some (translateVarName n b, ctx)
      | .commandSub c => cs c ctx
      | .glob _ => some (([] : Str), ctx)  -- excluded by canUseDoubleQuote
    let (restS, c2) ← compoundInner cs rest c1
    some (s ++ restS, c2)

/-- `+`-concatenation fallback segments of `translateCompoundWord`. -/
def compoundSegments (cs : Str → Ctx → Option (Str × Ctx)) :
    List WordPart → Ctx → Option (List Str × Ctx)
  | [], ctx => some ([], ctx)
  | p :: rest, ctx => do
    let (s, c1) ← translateSinglePart cs p ctx
    let (restS, c2) ← compoundSegments cs rest c1
    some (s :: restS, c2)

/-- transformer `translateCompoundWord`. -/
def translateCompoundWord (cs : Str → Ctx → Option (Str × Ctx))
    (parts : List WordPart) (ctx : Ctx) : Option (Str × Ctx) :=
  let canUseDoubleQuote := parts.all fun p =>
    match p with
    | .literal _ _ | .var _ _ | .commandSub _ => true
    | .glob _ => false
  if canUseDoubleQuote then do
    let (inner, c1) ← compoundInner cs parts ctx
    some ('"' :: inner ++ ['"'], c1)
  else do
    let (segs, c1) ← compoundSegments cs parts ctx
    some ('(' :: List.intercalate (str " + ") segs ++ [')'], c1)

/-- transformer `translateWord`: the word-quoting algorithm. -/
def translateWord (cs : Str → Ctx → Option (Str × Ctx)) (w : WordNode)
    (ctx : Ctx) : Option (Str × Ctx) :=
  let translated := translatePathInArgs w
  match translated.parts with
  | [] => some (str "''", ctx)
  | [p] => translateSinglePart cs p ctx
  | parts => translateCompoundWord cs parts ctx

/-- Context-threaded map of `translateWord` over a word list. -/
def translateWords (cs : Str → Ctx → Option (Str × Ctx)) :
    List WordNode → Ctx → Option (List Str × Ctx)
  | [], ctx => some ([], ctx)
  | w :: ws, ctx => do
    let (s, c1) ← translateWord cs w ctx
    let (rest, c2) ← translateWords cs ws c1
    some (s :: rest, c2)

/-- transformer `translateRedirect`. -/
def translateRedirect (cs : Str → Ctx → Option (Str × Ctx))
    (r : RedirectNode) (ctx : Ctx) : Option (Str × Ctx) :=
  match r.targetFd with
  | some m => some (natToDec r.fd ++ str ">&" ++ natToDec m, ctx)
  | none => do
    let target := translatePath r.target
    let (targetStr, c1) ← translateWord cs target ctx
    if targetStr = str "$null" then
      match r.op with
      | .rOut =>
        some ((if r.fd > 1 then natToDec r.fd else []) ++ str ">$null", c1)
      | .rAppend =>
        some ((if r.fd > 1 then natToDec r.fd else []) ++ str ">>$null", c1)
      | _ => some ([], c1)
    else
      let fdPre := if r.fd > 1 then natToDec r.fd else []
      match r.op with
      | .rOut => some (fdPre ++ str "> " ++ targetStr, c1)
      | .rAppend => some (fdPre ++ str ">> " ++ targetStr, c1)
      | .rIn => some (str "< " ++ targetStr, c1)
      | .rHereString => some ('(' :: targetStr ++ str ") |", c1)

/-- Context-threaded map of `translateRedirect`. -/
def translateRedirects (cs : Str → Ctx → Option (Str × Ctx)) :
    List RedirectNode → Ctx → Option (List Str × Ctx)
  | [], ctx => some ([], ctx)
  | r :: rs, ctx => do
    let (s, c1) ← translateRedirect cs r ctx
    let (rest, c2) ← translateRedirects cs rs c1
    some (s :: rest, c2)

/-- transformer `translateAssignment`. -/
def translateAssignment (cs : Str → Ctx → Option (Str × Ctx))
    (a : AssignmentNode) (ctx : Ctx) : Option (Str × Ctx) := do
  let (v, c1) ←
    match a.value with
    | some w => translateWord cs w ctx
    | none => some (str "''", ctx)
  some (str "$env:" ++ a.name ++ str " = " ++ v, c1)

/-- Context-threaded map of `translateAssignment`. -/
def translateAssigns (cs : Str → Ctx → Option (Str × Ctx)) :
    List AssignmentNode → Ctx → Option (List Str × Ctx)
  | [], ctx => some ([], ctx)
  | a :: as_, ctx => do
    let (s, c1) ← translateAssignment cs a ctx
    let (rest, c2) ← translateAssigns cs as_ c1
    some (s :: rest, c2)

-- ===================================================================
-- SHARED ARG READER (src/commands/arg-parser.ts, in src/unnamed/part_003)
-- ===================================================================

/-- A flag value: JS stores `true` or a string. -/
inductive FlagVal where
  | fb (b : Bool)
  | fs (s : Str)
deriving DecidableEq, Repr

/-- Flag record: association list in insertion order (JS object). -/
abbrev Flags := List (Str × FlagVal)

/-- JS `flags[key] = v`: overwrite in place or append. -/
def setFlag (m : Flags) (k : Str) (v : FlagVal) : Flags :=
  if m.any (fun kv => kv.1 = k) then
    m.map fun kv => if kv.1 = k then (k, v) else kv
  else m ++ [(k, v)]

/-- JS `flags[key]` lookup. -/
def getFlag (m : Flags) (k : Str) : Option FlagVal :=
  (m.find? (fun kv => kv.1 = k)).map Prod.snd

/-- JS truthiness of `flags[key]` (`!!` or an `if`): absent and the empty
string are falsy. -/
def truthy (v : Option FlagVal) : Bool :=
  match v with
  | none => false
  | some (.fb b) => b
  | some (.fs s) => !s.isEmpty

/-- The flag's string value where the source casts `as string`. -/
def flagStr (v : Option FlagVal) : Option Str :=
  match v with
  | some (.fs s) => some s
  | _ => none

/-- Truthiness of an optional string (`if (include)` and the like). -/
def optTruthy (v : Option Str) : Bool :=
  match v with
  | none => false
  | some s => !s.isEmpty

/-- arg-parser `FlagSpec`. -/
structure FlagSpec where
  short : Option Char := none
  long : Option Str := none
  takesValue : Bool := false

/-- Spec keyed by its long name. -/
def findSpecLong (specs : List FlagSpec) (name : Str) : Option FlagSpec :=
  specs.find? (fun sp => sp.long = some name)

/-- Spec keyed by its short letter. -/
def findSpecShort (specs : List FlagSpec) (c : Char) : Option FlagSpec :=
  specs.find? (fun sp => sp.short = some c)

/-- The stored key of a matched spec: `spec.long ?? spec.short ?? fallback`. -/
def specKey (sp : FlagSpec) (fallback : Str) : Str :=
  match sp.long with
  | some l => l
  | none =>
    match sp.short with
    | some c => [c]
    | none => fallback

/-- Combined-short-flag inner loop (`-xyz`, `-xVALUE`); returns the updated
flags and whether the next argument was consumed as a value. -/
def shortFlagLoop (specs : List FlagSpec) (next : Option Str) :
    List Char → Flags → (Flags × Bool)
  | [], m => (m, false)
  | ch :: rest, m =>
    match findSpecShort specs ch with
    | some sp =>
      if sp.takesValue then
        if !rest.isEmpty then (setFlag m (specKey sp [ch]) (.fs rest), false)
        else
          match next with
          | some v => (setFlag m (specKey sp [ch]) (.fs v), true)
          | none => (m, false)
      else shortFlagLoop specs next rest (setFlag m (specKey sp [ch]) (.fb true))
    | none => shortFlagLoop specs next rest (setFlag m [ch] (.fb true))

/-- arg-parser `parseArgs` main loop. -/
def parseArgsLoop (specs : List FlagSpec) :
    Nat → List Str → Flags → List Str → (Flags × List Str)
  | 0, _, m, pos => (m, pos)
  | _ + 1, [], m, pos => (m, pos)
  | fuel + 1, arg :: rest, m, pos =>
    if arg = str "--" then (m, pos ++ rest)
    else if arg.take 2 = str "--" then
      let eqSplit := arg.findIdx? (· = '=')
      let name :=
        match eqSplit with
        | some eq => (arg.take eq).drop 2
        | none => arg.drop 2
      match findSpecLong specs name with
      | some sp =>
        if sp.takesValue then
          match eqSplit with
          | some eq => parseArgsLoop specs fuel rest (setFlag m (specKey sp name) (.fs (arg.drop (eq + 1)))) pos
          | none =>
            match rest with
            | v :: rest' => parseArgsLoop specs fuel rest' (setFlag m (specKey sp name) (.fs v)) pos
            | [] => parseArgsLoop specs fuel rest m pos
        else parseArgsLoop specs fuel rest (setFlag m (specKey sp name) (.fb true)) pos
      | none =>
        match eqSplit with
        | some eq => parseArgsLoop specs fuel rest (setFlag m name (.fs (arg.drop (eq + 1)))) pos
        | none => parseArgsLoop specs fuel rest (setFlag m name (.fb true)) pos
    else if arg.head? = some '-' && decide (1 < arg.length) && !(arg.getD 1 ' ' = '-') then
      let (m', consumedNext) := shortFlagLoop specs rest.head? (arg.drop 1) m
      parseArgsLoop specs fuel (if consumedNext then rest.drop 1 else rest) m' pos
    else parseArgsLoop specs fuel rest m (pos ++ [arg])

/-- arg-parser `parseArgs`. -/
def parseArgs (args : List Str) (specs : List FlagSpec) : (Flags × List Str) :=
  parseArgsLoop specs (args.length + 1) args [] []

/-- arg-parser `wordRawString`: untranslated text of a word. -/
def wordRawString (w : WordNode) : Str :=
  (w.parts.map fun p =>
    match p with
    | .literal v _ => v
    | .var n b => if b then '$' :: lBrace :: n ++ [rBrace] else '$' :: n
    | .commandSub c => str "$(" ++ c ++ str ")"
    | .glob _ => []).flatten

/-- A translator's result (src/commands/index.ts `TranslatedCommand`). -/
structure TranslatedCommand where
  command : Str
  warnings : List Str
  usedFallback : Bool
deriving DecidableEq, Repr

-- ===================================================================
-- GREP TRANSLATOR (src/commands/grep.ts)
-- ===================================================================

/-- grep.ts GREP_FLAGS. -/
def GREP_FLAGS : List FlagSpec := [
  ⟨some 'r', some (str "recursive"), false⟩,
  ⟨some 'R', some (str "dereference-recursive"), false⟩,
  ⟨some 'i', some (str "ignore-case"), false⟩,
  ⟨some 'n', some (str "line-number"), false⟩,
  ⟨some 'l', some (str "files-with-matches"), false⟩,
  ⟨some 'L', some (str "files-without-match"), false⟩,
  ⟨some 'c', some (str "count"), false⟩,
  ⟨some 'v', some (str "invert-match"), false⟩,
  ⟨some 'w', some (str "word-regexp"), false⟩,
  ⟨some 'x', some (str "line-regexp"), false⟩,
  ⟨some 'E', some (str "extended-regexp"), false⟩,
  ⟨some 'F', some (str "fixed-strings"), false⟩,
  ⟨some 'P', some (str "perl-regexp"), false⟩,
  ⟨some 'o', some (str "only-matching"), false⟩,
  ⟨some 'q', some (str "quiet"), false⟩,
  ⟨some 'H', some (str "with-filename"), false⟩,
  ⟨some 'h', some (str "no-filename"), false⟩,
  ⟨some 'm', some (str "max-count"), true⟩,
  ⟨some 'A', some (str "after-context"), true⟩,
  ⟨some 'B', some (str "before-context"), true⟩,
  ⟨some 'C', some (str "context"), true⟩,
  ⟨some 'e', some (str "regexp"), true⟩,
  ⟨none, some (str "include"), true⟩,
  ⟨none, some (str "exclude"), true⟩,
  ⟨none, some (str "exclude-dir"), true⟩,
  ⟨none, some (str "color"), true⟩,
  ⟨none, some (str "colour"), true⟩]

/-- The option values grep.ts reads off the parsed flags (lines 44-62). -/
structure GrepOpts where
  pattern : Str
  files : List Str
  recursive : Bool
  ignoreCase : Bool
  lineNumber : Bool
  filesOnly : Bool
  filesWithout : Bool
  count : Bool
  invert : Bool
  onlyMatch : Bool
  quiet : Bool
  fixedStrings : Bool
  includeGlob : Option Str
  exclude : Option Str
  excludeDir : Option Str
  maxCount : Option Str
  afterCtx : Option Str
  beforeCtx : Option Str
  contextLines : Option Str
deriving Repr

/-- grep.ts lines 40-62: raw args, flag parsing and option extraction. -/
def grepOpts (cmd : SimpleCmd) : GrepOpts :=
  let rawArgs := cmd.args.map wordRawString
  let (flags, positional) := parseArgs rawArgs GREP_FLAGS
  let pattern :=
    match flagStr (getFlag flags (str "regexp")) with
    | some s => s
    | none => positional.headD []
  let files :=
    if truthy (getFlag flags (str "regexp")) then positional else positional.drop 1
  { pattern := pattern
    files := files
    recursive := truthy (getFlag flags (str "recursive")) ||
      truthy (getFlag flags (str "dereference-recursive"))
    ignoreCase := truthy (getFlag flags (str "ignore-case"))
    lineNumber := truthy (getFlag flags (str "line-number"))
    filesOnly := truthy (getFlag flags (str "files-with-matches"))
    filesWithout := truthy (getFlag flags (str "files-without-match"))
    count := truthy (getFlag flags (str "count"))
    invert := truthy (getFlag flags (str "invert-match"))
    onlyMatch := truthy (getFlag flags (str "only-matching"))
    quiet := truthy (getFlag flags (str "quiet"))
    fixedStrings := truthy (getFlag flags (str "fixed-strings"))
    includeGlob := flagStr (getFlag flags (str "include"))
    exclude := flagStr (getFlag flags (str "exclude"))
    excludeDir := flagStr (getFlag flags (str "exclude-dir"))
    maxCount := flagStr (getFlag flags (str "max-count"))
    afterCtx := flagStr (getFlag flags (str "after-context"))
    beforeCtx := flagStr (getFlag flags (str "before-context"))
    contextLines := flagStr (getFlag flags (str "context")) }

/-- PowerShell single-quoted rendering `'${x.replace(/'/g, "''")}'`. -/
def psQuote (s : Str) : Str := '\'' :: escapePsSingleQuote s ++ ['\'']

/-- grep.ts ripgrep path (lines 65-89), as the `parts` array. -/
def grepRgParts (o : GrepOpts) : List Str :=
  [str "rg"] ++
  (if o.fixedStrings then [str "-F"] else []) ++
  (if o.ignoreCase then [str "-i"] else []) ++
  (if !o.ignoreCase then [str "-s"] else []) ++
  (if o.lineNumber then [str "-n"] else []) ++
  (if o.filesOnly then [str "-l"] else []) ++
  (if o.filesWithout then [str "--files-without-match"] else []) ++
  (if o.count then [str "-c"] else []) ++
  (if o.invert then [str "-v"] else []) ++
  (if o.onlyMatch then [str "-o"] else []) ++
  (if o.quiet then [str "-q"] else []) ++
  (if optTruthy o.maxCount then [str "-m", o.maxCount.getD []] else []) ++
  (if optTruthy o.afterCtx then [str "-A", o.afterCtx.getD []] else []) ++
  (if optTruthy o.beforeCtx then [str "-B", o.beforeCtx.getD []] else []) ++
  (if optTruthy o.contextLines then [str "-C", o.contextLines.getD []] else []) ++
  (if optTruthy o.includeGlob then [str "-g", '\'' :: o.includeGlob.getD [] ++ ['\'']] else []) ++
  (if optTruthy o.exclude then [str "-g", str "'!" ++ o.exclude.getD [] ++ ['\'']] else []) ++
  (if optTruthy o.excludeDir then [str "-g", str "'!" ++ o.excludeDir.getD [] ++ str "/**'"] else []) ++
  (if !o.recursive && o.files.isEmpty then [str "--no-recursive"] else []) ++
  [psQuote o.pattern] ++
  o.files.map psQuote

/-- Output-format tail of the grep fallback (grep.ts lines 118-161): the
one formatting segment pushed after the Select-String options. -/
def grepFormatTail (o : GrepOpts) : List Str :=
  if o.quiet then
    [str "| ForEach-Object \x7b $true \x7d | Select-Object -First 1"]
  else if o.filesOnly then
    [str "| Select-Object -Unique -ExpandProperty Path"]
  else if o.filesWithout then
    [str "| Select-Object -Unique -ExpandProperty Path"]
  else if o.count then
    (if 1 < o.files.length then
      [str "| Group-Object Path | ForEach-Object \x7b \"$($_.Name):$($_.Count)\" \x7d"]
    else [str "| Measure-Object | ForEach-Object \x7b $_.Count \x7d"])
  else if o.onlyMatch then
    [str "| ForEach-Object \x7b $_.Matches.Value \x7d"]
  else if 1 < o.files.length || o.recursive then
    (if o.lineNumber then
      [str "| ForEach-Object \x7b \"$($_.Path):$($_.LineNumber):$($_.Line)\" \x7d"]
    else [str "| ForEach-Object \x7b \"$($_.Path):$($_.Line)\" \x7d"])
  else if o.files.length = 1 then
    (if o.lineNumber then
      [str "| ForEach-Object \x7b \"$($_.LineNumber):$($_.Line)\" \x7d"]
    else [str "| ForEach-Object \x7b $_.Line \x7d"])
  else
    (if o.lineNumber then
      [str "| ForEach-Object \x7b \"$($_.LineNumber):$($_.Line)\" \x7d"]
    else [str "| ForEach-Object \x7b $_.Line \x7d"])

/-- grep.ts Select-String fallback (lines 93-161), as the `parts` array. -/
def grepFallbackParts (o : GrepOpts) : List Str :=
  (if o.recursive then
    [List.intercalate (str " ")
      ([str "Get-ChildItem", str "-Recurse", str "-File"] ++
       (if !o.files.isEmpty then
         [str "-Path", List.intercalate (str ",") (o.files.map psQuote)] else []) ++
       (if optTruthy o.includeGlob then
         [str "-Include", '\'' :: o.includeGlob.getD [] ++ ['\'']] else []) ++
       (if optTruthy o.exclude then
         [str "-Exclude", '\'' :: o.exclude.getD [] ++ ['\'']] else [])),
     str "|"]
  else []) ++
  [str "Select-String",
   str "-Pattern",
   (if o.fixedStrings then str "-SimpleMatch " ++ psQuote o.pattern
    else psQuote o.pattern)] ++
  (if !o.recursive && !o.files.isEmpty then
    [str "-Path", List.intercalate (str ",") (o.files.map psQuote)] else []) ++
  (if !o.ignoreCase then [str "-CaseSensitive"] else []) ++
  (if o.invert then [str "-NotMatch"] else []) ++
  grepFormatTail o

/-- grep.ts `grepTranslator`: ripgrep when available, else the
Select-String fallback (which sets `usedFallback`). -/
def grepTranslator (cmd : SimpleCmd) (ctx : Ctx) : TranslatedCommand :=
  let o := grepOpts cmd
  if ctx.tools.rg then
    { command := List.intercalate (str " ") (grepRgParts o),
      warnings := [], usedFallback := false }
  else
    { command := List.intercalate (str " ") (grepFallbackParts o),
      warnings := [], usedFallback := true }

-- ===================================================================
-- WC TRANSLATOR (src/commands/wc.ts)
-- ===================================================================

/-- wc.ts WC_FLAGS. -/
def WC_FLAGS : List FlagSpec := [
  ⟨some 'l', some (str "lines"), false⟩,
  ⟨some 'w', some (str "words"), false⟩,
  ⟨some 'c', some (str "bytes"), false⟩,
  ⟨some 'm', some (str "chars"), false⟩]

/-- wc.ts `wcTranslator` (reads neither the context nor the word
translator). -/
def wcTranslator (cmd : SimpleCmd) : TranslatedCommand :=
  let rawArgs := cmd.args.map wordRawString
  let (flags, positional) := parseArgs rawArgs WC_FLAGS
  let lines := truthy (getFlag flags (str "lines"))
  let words := truthy (getFlag flags (str "words"))
  let bytes := truthy (getFlag flags (str "bytes"))
  let chars := truthy (getFlag flags (str "chars"))
  let files := positional.map psQuote
  let filesJ := List.intercalate (str ",") files
  let command :=
    if lines then
      if !files.isEmpty then
        str "(Get-Content " ++ filesJ ++ str " | Measure-Object -Line).Lines"
      else str "(Measure-Object -Line).Lines"
    else if words then
      if !files.isEmpty then
        str "(Get-Content " ++ filesJ ++ str " | Measure-Object -Word).Words"
      else str "(Measure-Object -Word).Words"
    else if chars || bytes then
      if !files.isEmpty then
        str "(Get-Content " ++ filesJ ++ str " | Measure-Object -Character).Characters"
      else str "(Measure-Object -Character).Characters"
    else
      if !files.isEmpty then
        str "Get-Content " ++ filesJ ++ str " | Measure-Object -Line -Word -Character"
      else str "Measure-Object -Line -Word -Character"
  { command := command, warnings := [], usedFallback := true }

-- ===================================================================
-- CAT TRANSLATOR (src/commands/cat.ts)
-- ===================================================================

/-- cat.ts CAT_FLAGS. -/
def CAT_FLAGS : List FlagSpec := [
  ⟨some 'n', some (str "number"), false⟩,
  ⟨some 'b', some (str "number-nonblank"), false⟩,
  ⟨some 's', some (str "squeeze-blank"), false⟩,
  ⟨some 'E', some (str "show-ends"), false⟩,
  ⟨some 'T', some (str "show-tabs"), false⟩,
  ⟨some 'A', some (str "show-all"), false⟩]

/-- cat.ts positional-file loop (lines 26-32): a word whose raw form does
not start with `-` (or is exactly `-`) is word-translated. -/
def catFiles (cs : Str → Ctx → Option (Str × Ctx)) :
    List (WordNode × Str) → Ctx → Option (List Str × Ctx)
  | [], ctx => some ([], ctx)
  | (w, raw) :: rest, ctx =>
    if !(raw.head? = some '-') || raw = str "-" then do
      let (s, c1) ← translateWord cs w ctx
      let (restS, c2) ← catFiles cs rest c1
      some (s :: restS, c2)
    else catFiles cs rest ctx

/-- cat.ts `catTranslator`. -/
def catTranslator (cs : Str → Ctx → Option (Str × Ctx)) (cmd : SimpleCmd)
    (ctx : Ctx) : Option (TranslatedCommand × Ctx) := do
  let rawArgs := cmd.args.map wordRawString
  let (flags, _positional) := parseArgs rawArgs CAT_FLAGS
  let showNumbers := truthy (getFlag flags (str "number")) ||
    truthy (getFlag flags (str "number-nonblank"))
  let (files, c1) ← catFiles cs (cmd.args.zip rawArgs) ctx
  if files.isEmpty then
    some ({ command := str "Get-Content", warnings := [], usedFallback := true }, c1)
  else
    let base := str "Get-Content " ++ List.intercalate (str ",") files
    let result :=
      if showNumbers then
        base ++ str " | ForEach-Object \x7b $i = 0 \x7d \x7b $i++; '\x7b0,6\x7d  \x7b1\x7d' -f $i, $_ \x7d"
      else base
    some ({ command := result, warnings := [], usedFallback := true }, c1)

-- ===================================================================
-- CD TRANSLATOR (inline in src/commands/index.ts, lines 96-104)
-- ===================================================================

/-- The raw text the cd translator builds per argument: only Literal parts
contribute. -/
def cdRaw (w : WordNode) : Str :=
  (w.parts.map fun p =>
    match p with
    | .literal v _ => v
    | _ => []).flatten

/-- cd's argument mapping: `~` and the empty raw map to
`$env:USERPROFILE`, `-` to `$OLDPWD`, everything else is word-translated. -/
def cdArgs (cs : Str → Ctx → Option (Str × Ctx)) :
    List WordNode → Ctx → Option (List Str × Ctx)
  | [], ctx => some ([], ctx)
  | w :: ws, ctx => do
    let raw := cdRaw w
    let (s, c1) ←
      if raw = str "~" || raw.isEmpty then some (str "$env:USERPROFILE", ctx)
      else if raw = str "-" then some (str "$OLDPWD", ctx)
      else translateWord cs w ctx
    let (rest, c2) ← cdArgs cs ws c1
    some (s :: rest, c2)

/-- The registered cd translator. -/
def cdTranslator (cs : Str → Ctx → Option (Str × Ctx)) (cmd : SimpleCmd)
    (ctx : Ctx) : Option (TranslatedCommand × Ctx) := do
  let (args, c1) ← cdArgs cs cmd.args ctx
  some ({ command := str "Set-Location " ++ args.headD (str "$env:USERPROFILE"),
          warnings := [], usedFallback := true }, c1)

-- ===================================================================
-- TRANSLATOR REGISTRY (src/commands/index.ts)
-- ===================================================================

/-- Which translator a registry entry dispatches to.  The four translators
the claims exercise are embedded above; every other registered command is
`otherK` — present so that registered-vs-pass-through dispatch is faithful,
its output never relied on by any theorem. -/
inductive TransKind where
  | grepK | catK | wcK | cdK
  | otherK (tag : Str)
deriving DecidableEq, Repr

/-- The registration list of src/commands/index.ts, in source order. -/
def registry : List (Str × TransKind) :=
  [(str "grep", .grepK), (str "egrep", .grepK), (str "fgrep", .grepK),
   (str "find", .otherK (str "find")), (str "ls", .otherK (str "ls")),
   (str "ll", .otherK (str "ls")), (str "cat", .catK),
   (str "head", .otherK (str "head")), (str "tail", .otherK (str "tail")),
   (str "echo", .otherK (str "echo")), (str "printf", .otherK (str "printf")),
   (str "rm", .otherK (str "rm")), (str "cp", .otherK (str "cp")),
   (str "mv", .otherK (str "mv")), (str "mkdir", .otherK (str "mkdir")),
   (str "touch", .otherK (str "touch")), (str "ln", .otherK (str "ln")),
   (str "chmod", .otherK (str "chmod")), (str "sed", .otherK (str "sed")),
   (str "awk", .otherK (str "awk")), (str "gawk", .otherK (str "awk")),
   (str "wc", .wcK), (str "which", .otherK (str "which")),
   (str "command", .otherK (str "which")), (str "ps", .otherK (str "ps")),
   (str "kill", .otherK (str "kill")), (str "curl", .otherK (str "curl")),
   (str "wget", .otherK (str "wget")), (str "sort", .otherK (str "sort")),
   (str "uniq", .otherK (str "uniq")), (str "tr", .otherK (str "tr")),
   (str "tee", .otherK (str "tee")), (str "diff", .otherK (str "diff")),
   (str "xargs", .otherK (str "xargs")),
   (str "basename", .otherK (str "basename")),
   (str "dirname", .otherK (str "dirname")),
   (str "realpath", .otherK (str "realpath")),
   (str "readlink", .otherK (str "readlink")),
   (str "export", .otherK (str "export")), (str "unset", .otherK (str "unset")),
   (str "env", .otherK (str "env")), (str "test", .otherK (str "test")),
   (str "[", .otherK (str "test")), (str "cut", .otherK (str "cut")),
   (str "lsof", .otherK (str "lsof")), (str "pkill", .otherK (str "pkill")),
   (str "killall", .otherK (str "killall")),
   (str "pgrep", .otherK (str "pgrep")), (str "zip", .otherK (str "zip")),
   (str "unzip", .otherK (str "unzip")), (str "true", .otherK (str "true")),
   (str "false", .otherK (str "false")), (str "cd", .cdK),
   (str "pwd", .otherK (str "pwd")), (str "clear", .otherK (str "clear")),
   (str "sleep", .otherK (str "sleep")), (str "date", .otherK (str "date")),
   (str "whoami", .otherK (str "whoami")), (str "uname", .otherK (str "uname")),
   (str "du", .otherK (str "du")), (str "df", .otherK (str "df")),
   (str "history", .otherK (str "history")), (str "exit", .otherK (str "exit")),
   (str "mktemp", .otherK (str "mktemp")), (str "nohup", .otherK (str "nohup")),
   (str "sudo", .otherK (str "sudo")), (str "seq", .otherK (str "seq")),
   (str "source", .otherK (str "source")), (str ".", .otherK (str "source"))]

/-- src/commands/index.ts `getTranslator`. -/
def getTranslator (name : Str) : Option TransKind :=
  (registry.find? (fun kv => kv.1 = name)).map Prod.snd

/-- Dispatch a registered translator.  `otherK` stands for the registered
commands whose bodies are not part of this embedding; no theorem below
depends on its output. -/
def runTranslator (cs : Str → Ctx → Option (Str × Ctx)) :
    TransKind → SimpleCmd → Ctx → Option (TranslatedCommand × Ctx)
  | .grepK, cmd, ctx => some (grepTranslator cmd ctx, ctx)
  | .catK, cmd, ctx => catTranslator cs cmd ctx
  | .wcK, cmd, ctx => some (wcTranslator cmd, ctx)
  | .cdK, cmd, ctx => cdTranslator cs cmd ctx
  | .otherK tag, _, ctx =>
    some ({ command := str "# unmodelled translator " ++ tag,
            warnings := [], usedFallback := true }, ctx)

-- ===================================================================
-- SIMPLE COMMANDS AND STATEMENTS (src/transformer.ts lines 302-400)
-- ===================================================================

/-- transformer `translateSimpleCommand` after the assignment prefix:
dispatch through the registry or pass the command through. -/
def simpleAfter (cs : Str → Ctx → Option (Str × Ctx)) (cmd : SimpleCmd)
    (pre : Str) (nm : WordNode) (ctx : Ctx) : Option (Str × Ctx) := do
  let cmdName := wordToString nm
  match getTranslator cmdName with
  | some k => do
    let (result, c1) ← runTranslator cs k cmd ctx
    let c2 := { c1 with
      usedFallbacks := c1.usedFallbacks || result.usedFallback,
      warnings := c1.warnings ++ result.warnings }
    let (rds, c3) ← translateRedirects cs cmd.redirects c2
    let rdJ := List.intercalate (str " ") rds
    some (pre ++ result.command ++ (if rdJ.isEmpty then [] else ' ' :: rdJ), c3)
  | none => do
    let (args, c1) ← translateWords cs cmd.args ctx
    let (rds, c2) ← translateRedirects cs cmd.redirects c1
    let rdJ := List.intercalate (str " ") rds
    let command := List.intercalate (str " ") (cmdName :: args)
    some (pre ++ command ++ (if rdJ.isEmpty then [] else ' ' :: rdJ), c2)

/-- transformer `translateSimpleCommand`. -/
def translateSimpleCommand (cs : Str → Ctx → Option (Str × Ctx))
    (cmd : SimpleCmd) (ctx : Ctx) : Option (Str × Ctx) :=
  if !cmd.assignments.isEmpty then do
    let (asgn, c1) ← translateAssigns cs cmd.assignments ctx
    let pre := List.intercalate (str "; ") asgn
    match cmd.name with
    | none => some (pre, c1)
    | some nm => simpleAfter cs cmd (pre ++ str "; ") nm c1
  else
    match cmd.name with
    | none => some ([], ctx)
    | some nm => simpleAfter cs cmd [] nm ctx

mutual
/-- Context-threaded map of `translateStatement` over a script body;
`translateScript` below joins the results with `"; "`. -/
def translateStatements (cs : Str → Ctx → Option (Str × Ctx)) :
    List StmtNode → Ctx → Option (List Str × Ctx)
  | [], ctx => some ([], ctx)
  | s :: ss, ctx => do
    let (v, c1) ← translateStatement cs s ctx
    let (vs, c2) ← translateStatements cs ss c1
    some (v :: vs, c2)

/-- transformer `translateStatement` / `translatePipeline` /
`translateLogicalExpr`. -/
def translateStatement (cs : Str → Ctx → Option (Str × Ctx)) :
    StmtNode → Ctx → Option (Str × Ctx)
  | .pipeline cmds negated, ctx => do
    let (vs, c1) ← translateCommands cs cmds ctx
    let joined := List.intercalate (str " | ") vs
    some (if negated then str "!(" ++ joined ++ str ")" else joined, c1)
  | .logical op l r, ctx => do
    let (ls, c1) ← translateStatement cs l ctx
    let (rs, c2) ← translateStatement cs r c1
    match op with
    | .andOp => some (ls ++ str "; if ($?) \x7b " ++ rs ++ str " \x7d", c2)
    | .orOp => some (ls ++ str "; if (-not $?) \x7b " ++ rs ++ str " \x7d", c2)
    | .semiOp => some (ls ++ str "; " ++ rs, c2)
  | .assignStmt assigns, ctx => do
    let (vs, c1) ← translateAssigns cs assigns ctx
    some (List.intercalate (str "; ") vs, c1)

/-- Context-threaded map of `translateCommand` over a pipeline. -/
def translateCommands (cs : Str → Ctx → Option (Str × Ctx)) :
    List CmdNode → Ctx → Option (List Str × Ctx)
  | [], ctx => some ([], ctx)
  | c :: cmds, ctx => do
    let (v, c1) ← translateCommand cs c ctx
    let (vs, c2) ← translateCommands cs cmds c1
    some (v :: vs, c2)

/-- transformer `translateCommand` / `translateSubshell` (the subshell body
goes through `translateScript`, inlined here as the statement map plus the
`"; "` join so that the mutual recursion stays structural). -/
def translateCommand (cs : Str → Ctx → Option (Str × Ctx)) :
    CmdNode → Ctx → Option (Str × Ctx)
  | .simple c, ctx => translateSimpleCommand cs c ctx
  | .subshell body reds, ctx => do
    let (bs, c1) ← translateStatements cs body ctx
    let b := List.intercalate (str "; ") bs
    let (rds, c2) ← translateRedirects cs reds c1
    let rdJ := List.intercalate (str " ") rds
    let base := str "& \x7b " ++ b ++ str " \x7d"
    some (if rdJ.isEmpty then base else base ++ ' ' :: rdJ, c2)
end

/-- transformer `translateScript`: statements joined with `"; "`. -/
def translateScript (cs : Str → Ctx → Option (Str × Ctx))
    (body : List StmtNode) (ctx : Ctx) : Option (Str × Ctx) := do
  let (vs, c1) ← translateStatements cs body ctx
  some (List.intercalate (str "; ") vs, c1)

-- ===================================================================
-- ORCHESTRATOR (src/index.ts) and the command-substitution knot
-- ===================================================================

/-- transformer `translateCommandSub` tied to the full pipeline at
decreasing fuel: re-lex and re-parse the inner command; a parse error is
caught (warning and raw pass-through), divergence propagates as `none`. -/
def csAt : Nat → Str → Ctx → Option (Str × Ctx)
  | 0, _, _ => none
  | n + 1, command, ctx =>
    match parseTop n (lex command) with
    | .err _ =>
      some (str "$(" ++ command ++ str ")",
        { ctx with warnings := ctx.warnings ++
          [str "Could not parse command substitution: $(" ++ command ++ str ")"] })
    | .out => none
    | .ok ast _ =>
      match translateScript (csAt n) ast ctx with
      | none => none
      | some (inner, c1) => some (str "$(" ++ inner ++ str ")", c1)

/-- index.ts `isBlank` (and the `!bash` guard: the empty string is blank). -/
def isBlankStr (s : Str) : Bool :=
  s.all fun c => c = ' ' || c = '\t' || c = '\n' || c = '\r'

/-- The error comment `# TRANSPILE ERROR: <msg>\n# Original: <bash>`. -/
def errComment (msg bash : Str) : Str :=
  str "# TRANSPILE ERROR: " ++ msg ++ str "\n# Original: " ++ bash

/-- index.ts `transpile` at the given fuel: `none` models a run that never
returns (the JavaScript has no fuel). -/
def transpile (fuel : Nat) (tools : Tools) (bash : Str) : Option Str :=
  if isBlankStr bash then some []
  else
    match parseTop fuel (lex bash) with
    | .err m => some (errComment m bash)
    | .out => none
    | .ok ast _ =>
      match translateScript (csAt fuel) ast (ctx0 tools) with
      | none => none
      | some (ps, _) => some ps

/-- index.ts `TranspileResult`. -/
structure TranspileResult where
  powershell : Str
  usedFallbacks : Bool
  warnings : List Str
  unsupported : List Str
deriving DecidableEq, Repr

/-- index.ts `transpileWithMeta` at the given fuel. -/
def transpileWithMeta (fuel : Nat) (tools : Tools) (bash : Str) :
    Option TranspileResult :=
  if isBlankStr bash then some ⟨[], false, [], []⟩
  else
    match parseTop fuel (lex bash) with
    | .err m =>
      some ⟨errComment m bash, false, [str "Transpilation failed: " ++ m], [bash]⟩
    | .out => none
    | .ok ast _ =>
      match translateScript (csAt fuel) ast (ctx0 tools) with
      | none => none
      | some (ps, c) => some ⟨ps, c.usedFallbacks, c.warnings, c.unsupported⟩

-- ===================================================================
-- STATEMENT HELPERS
-- ===================================================================

set_option maxRecDepth 10000

/-- The all-false tool record the repository's tests call `noTools`. -/
def noTools : Tools := ⟨false, false, false, false⟩

/-- `p` is an initial segment of `s`. -/
def beginsWith (p s : Str) : Prop := s.take p.length = p

instance (p s : Str) : Decidable (beginsWith p s) :=
  inferInstanceAs (Decidable (s.take p.length = p))

/-- `pat` occurs as a contiguous substring of `s` (decidable scan). -/
def containsSub (s pat : Str) : Bool :=
  (List.range (s.length + 1)).any fun i => (s.drop i).take pat.length == pat

-- ===================================================================
-- DIVERGENCE OF THE PARSER ON A TRAILING `&` (claims C1, C2, C3)
-- ===================================================================

/-- On `node server.js &` the statement loop is stuck at position 2 (the
Background token): no grammar rule consumes `TokTy.background`, `parseList`
returns an empty pipeline without advancing, and the loop iterates at the
same position for ever.  In the fueled model: `.out` at every fuel. -/
lemma scriptLoop_stuck_node_server : ∀ (n : Nat) (acc : List StmtNode),
    scriptLoop (lex (str "node server.js &")) n 2 acc = .out := by
  intro n
  induction n with
  | zero => intro acc; rfl
  | succ m ih =>
    intro acc
    exact ih (acc ++ [.pipeline [.simple ⟨[], none, [], []⟩] false])

/-- `parse` never completes on the token stream of `node server.js &`. -/
lemma parseTop_out_node_server :
    ∀ n, parseTop n (lex (str "node server.js &")) = .out := by
  intro n
  cases n with
  | zero => rfl
  | succ m => exact scriptLoop_stuck_node_server m _

/-- Same stuck loop on the minimal input `a &` (position 1). -/
lemma scriptLoop_stuck_a : ∀ (n : Nat) (acc : List StmtNode),
    scriptLoop (lex (str "a &")) n 1 acc = .out := by
  intro n
  induction n with
  | zero => intro acc; rfl
  | succ m ih =>
    intro acc
    exact ih (acc ++ [.pipeline [.simple ⟨[], none, [], []⟩] false])

/-- `parse` never completes on the token stream of `a &`. -/
lemma parseTop_out_a : ∀ n, parseTop n (lex (str "a &")) = .out := by
  intro n
  cases n with
  | zero => rfl
  | succ m => exact scriptLoop_stuck_a m _

/-- C1: the claim says `transpile` and `transpileWithMeta` return normally on
every input.  In fact, on `node server.js &` the parser never consumes the
`Background` token, `parseScript` makes no progress, and neither function
ever returns: in the fueled model both give no result at every fuel, for
every tools record. -/
theorem c1_transpile_never_returns_on_background :
    ∀ (n : Nat) (tools : Tools),
      transpile n tools (str "node server.js &") = none ∧
      transpileWithMeta n tools (str "node server.js &") = none := by
  intro n tools
  refine ⟨?_, ?_⟩
  · unfold transpile
    rw [parseTop_out_node_server n]
    rfl
  · unfold transpileWithMeta
    rw [parseTop_out_node_server n]
    rfl

/-- C2: the claim says the parser builds its AST in finite time for every
token stream the lexer can emit, streams with the `Background` token
included.  In fact the lexer emits `Background` for the trailing `&` of
`a &` and `parse` on that stream never terminates: in the fueled model it
exhausts every fuel. -/
theorem c2_parse_diverges_on_background_token :
    lex (str "a &") =
      [tok .word (str "a"), tok .background (str "&"), tok .eofTk []] ∧
    ∀ n, parseTop n (lex (str "a &")) = .out := by
  refine ⟨by decide, parseTop_out_a⟩

/-- C3: the lexer does emit a distinct `Background` token for a trailing `&`
(and none for `2>&1` or `&&`), but nothing ever consumes it: no `Start-Job`
wrapping exists, and `transpile "node server.js &"` never returns at all
instead of producing `Start-Job -ScriptBlock { node server.js }`. -/
theorem c3_no_start_job_for_trailing_background :
    lex (str "node server.js &") =
      [tok .word (str "node"), tok .word (str "server.js"),
       tok .background (str "&"), tok .eofTk []] ∧
    lex (str "cmd 2>&1") =
      [tok .word (str "cmd"),
       { ty := .redirectOut, value := str ">", fd := some 2, targetFd := some 1 },
       tok .eofTk []] ∧
    lex (str "a && b") =
      [tok .word (str "a"), tok .andTk (str "&&"), tok .word (str "b"),
       tok .eofTk []] ∧
    ∀ (n : Nat) (tools : Tools), transpile n tools (str "node server.js &") = none := by
  refine ⟨by decide, by decide, by decide, ?_⟩
  intro n tools
  unfold transpile
  rw [parseTop_out_node_server n]
  rfl

-- ===================================================================
-- CLAIM C4: quoting tags of merged words
-- ===================================================================

lemma lit_mem_flushLit (q : Quoting) (lit : Str) (parts : List WordPart)
    (v : Str) (q' : Quoting)
    (h : WordPart.literal v q' ∈ flushLit q lit parts) :
    WordPart.literal v q' ∈ parts ∨ q' = q := by
  unfold flushLit at h
  split at h
  · exact Or.inl h
  · rcases List.mem_append.mp h with h1 | h1
    · exact Or.inl h1
    · right
      injection List.mem_singleton.mp h1

lemma inv_extend (q : Quoting) (lit : Str) (parts : List WordPart) (x : WordPart)
    (hp : ∀ v q', WordPart.literal v q' ∈ parts → q' = q)
    (hx : ∀ v q', ¬ x = WordPart.literal v q') :
    ∀ v q', WordPart.literal v q' ∈ flushLit q lit parts ++ [x] → q' = q := by
  intro v q' h
  rcases List.mem_append.mp h with h1 | h1
  · rcases lit_mem_flushLit q lit parts v q' h1 with h2 | h2
    exacts [hp _ _ h2, h2]
  · exact absurd (List.mem_singleton.mp h1).symm (hx _ _)

lemma pwpScan_tags (q : Quoting) (fuel : Nat) (rest lit : Str) (parts : List WordPart) :
    (∀ v q', WordPart.literal v q' ∈ parts → q' = q) →
    ∀ v q', WordPart.literal v q' ∈ pwpScan q fuel rest lit parts → q' = q := by
  induction fuel, rest, lit, parts using pwpScan.induct q with
  | case1 x lit parts =>
    intro hp v q' h
    rcases lit_mem_flushLit q lit parts v q' h with h1 | h1
    exacts [hp _ _ h1, h1]
  | case2 n lit parts =>
    intro hp v q' h
    rcases lit_mem_flushLit q lit parts v q' h with h1 | h1
    exacts [hp _ _ h1, h1]
  | case3 fuel lit parts ih =>
    intro hp v q' h
    simp only [pwpScan] at h
    exact ih hp _ _ h
  | case4 fuel lit parts rest' cv crest hsub ih =>
    intro hp v q' h
    simp only [pwpScan, hsub] at h
    exact ih (inv_extend q lit parts _ hp (fun v1 q1 hq => by simp at hq)) _ _ h
  | case5 fuel lit parts rest' nm af hnp ih =>
    intro hp v q' h
    simp only [pwpScan] at h
    exact ih (inv_extend q lit parts _ hp (fun v1 q1 hq => by simp at hq)) _ _ h
  | case6 fuel lit parts n rest' h1 h2 h3 nm af ih =>
    intro hp v q' h
    simp only [pwpScan, h1, h2, h3] at h
    exact ih (inv_extend q lit parts _ hp (fun v1 q1 hq => by simp at hq)) _ _ h
  | case7 fuel lit parts n rest' h1 h2 h3 h4 ih =>
    intro hp v q' h
    simp only [pwpScan, h1, h2, h3, h4] at h
    exact ih (inv_extend q lit parts _ hp (fun v1 q1 hq => by simp at hq)) _ _ h
  | case8 fuel lit parts n rest' h1 h2 h3 h4 ih =>
    intro hp v q' h
    simp only [pwpScan, h1, h2, h3, h4] at h
    exact ih hp _ _ h
  | case9 fuel c crest lit parts hc ih =>
    intro hp v q' h
    simp only [pwpScan, hc] at h
    exact ih hp _ _ h

/-- Word-level quoting tag determined by a token's subtype. -/
def tokenTag : TokTy → Quoting
  | .singleQuoted => .single
  | .dollarSingleQuoted => .dollarSingle
  | .doubleQuoted => .double
  | _ => .unquoted

lemma parseWordParts_tag_gen (value : Str) (q0 : Quoting) (v : Str) (q : Quoting)
    (h : WordPart.literal v q ∈
      (if !value.contains '$' then [WordPart.literal value q0]
       else
         let parts := pwpScan q0 (value.length + 1) value [] []
         if parts.isEmpty then [WordPart.literal [] q0] else parts)) :
    q = q0 := by
  split at h
  · injection List.mem_singleton.mp h
  · dsimp only at h
    split at h
    · injection List.mem_singleton.mp h
    · exact pwpScan_tags q0 _ _ _ _ (fun v1 q1 h1 => absurd h1 (List.not_mem_nil _)) _ _ h

/-- C4: amended.  The original claim (each sub-segment of a merged word
keeps its OWN quoting tag) fails: the lexer merges adjacent
differently-quoted segments into a single token with one subtype, so
`'$x'"y"` becomes one DoubleQuoted token whose `$x` is then parsed as a
variable (see the counterexample).  What does hold is that every literal
part produced by `parseWordParts` carries exactly the quoting tag
determined by the token's subtype, and single- or dollar-single-quoted
tokens become one literal part with their own tag. -/
theorem c4_literal_tags_follow_token_subtype :
    (∀ (value : Str) (ty : TokTy) (v : Str) (q : Quoting),
        WordPart.literal v q ∈ parseWordParts value ty → q = tokenTag ty) ∧
    (∀ s : Str, parseWordParts s .singleQuoted = [.literal s .single]) ∧
    (∀ s : Str, parseWordParts s .dollarSingleQuoted = [.literal s .dollarSingle]) := by
  refine ⟨?_, fun s => rfl, fun s => rfl⟩
  intro value ty v q h
  cases ty
  all_goals first
    | injection List.mem_singleton.mp h
    | exact parseWordParts_tag_gen value _ v q h

theorem c4_witness_tag : Quoting.unquoted = tokenTag TokTy.word :=
  c4_literal_tags_follow_token_subtype.1 (str "a$b") .word (str "a") .unquoted (by decide)

theorem c4_counterexample_mixed :
    lex (str "'$x'\"y\"") = [tok .doubleQuoted (str "$xy"), tok .eofTk []] ∧
    parseWordParts (str "$xy") .doubleQuoted = [.var (str "xy") false] ∧
    ¬ parseWordParts (str "$xy") .doubleQuoted =
        [.literal (str "$x") .single, .literal (str "y") .double] := by decide

-- ===================================================================
-- CLAIMS C5, C6: path rewriting and unknown-command pass-through
-- ===================================================================

/-- C5: the claim says `~`/`~/rest` rewrite to `$env:USERPROFILE...` and
that quoted words are never path-rewritten.  In fact the transformer never
rewrites `~` at all (unquoted `~/projects` passes through quoted as
`'~/projects'`), while a single-quoted `/tmp/x` IS rewritten to
`$env:TEMP\x` because `translatePathInArgs` ignores the quoting tag. -/
theorem c5_tilde_untouched_quoted_tmp_rewritten :
    translateWord (csAt 5) ⟨[.literal (str "~/projects") .unquoted]⟩ (ctx0 noTools) =
      some (str "'~/projects'", ctx0 noTools) ∧
    translateWord (csAt 5) ⟨[.literal (str "~") .unquoted]⟩ (ctx0 noTools) =
      some (str "'~'", ctx0 noTools) ∧
    translateWord (csAt 5) ⟨[.literal (str "/tmp/x") .single]⟩ (ctx0 noTools) =
      some (str "\"$env:TEMP\\x\"", ctx0 noTools) ∧
    transpile 60 noTools (str "somecmd ~/projects") =
      some (str "somecmd '~/projects'") := by decide

/-- C6 counterexample: the pass-through emits the command NAME raw via
`wordToString` (a single-quoted name `my tool` comes out unquoted), not
via the word-quoting algorithm, which would give `'my tool'`. -/
theorem c6_counterexample_raw_name :
    translateSimpleCommand (csAt 5)
        ⟨[], some ⟨[.literal (str "my tool") .single]⟩, [], []⟩ (ctx0 noTools) =
      some (str "my tool", ctx0 noTools) ∧
    translateWord (csAt 5) ⟨[.literal (str "my tool") .single]⟩ (ctx0 noTools) =
      some (str "'my tool'", ctx0 noTools) ∧
    ¬ (str "my tool" = str "'my tool'") := by decide

/-- C6: amended.  On the pass-through path (no registered translator) the
command name is emitted RAW via `wordToString` while each argument is
word-translated; the raw name and translated arguments are joined with
single spaces in source order. -/
theorem c6_passthrough_shape :
    ∀ (cs : Str → Ctx → Option (Str × Ctx)) (nm : WordNode) (args : List WordNode) (ctx : Ctx),
      getTranslator (wordToString nm) = none →
      translateSimpleCommand cs ⟨[], some nm, args, []⟩ ctx =
        (translateWords cs args ctx).map fun p =>
          (List.intercalate (str " ") (wordToString nm :: p.1), p.2) := by
  intro cs nm args ctx hnone
  simp only [translateSimpleCommand, simpleAfter, hnone]
  cases htw : translateWords cs args ctx with
  | none => simp [htw]
  | some p =>
    obtain ⟨as_, c1⟩ := p
    simp [htw, translateRedirects, List.intercalate]

theorem c6_witness_npm :
    translateSimpleCommand (csAt 5)
        ⟨[], some ⟨[.literal (str "npm") .unquoted]⟩,
         [⟨[.literal (str "install") .unquoted]⟩], []⟩ (ctx0 noTools) =
      some (str "npm install", ctx0 noTools) := by
  have h := c6_passthrough_shape (csAt 5) ⟨[.literal (str "npm") .unquoted]⟩
    [⟨[.literal (str "install") .unquoted]⟩] (ctx0 noTools) (by decide)
  rw [h]
  decide

-- ===================================================================
-- CLAIM C7: grep fallback never inserts Get-ChildItem without -r
-- ===================================================================

lemma take_len_append (a b : Str) : (a ++ b).take a.length = a := by
  induction a with
  | nil => rfl
  | cons c cs ih => simp [List.take_succ_cons, ih]

lemma beginsWith_append_self (p t : Str) : beginsWith p (p ++ t) := by
  unfold beginsWith
  exact take_len_append p t

lemma beginsWith_of_append {p x : Str} (t : Str) (h : beginsWith p x) :
    beginsWith p (x ++ t) := by
  unfold beginsWith at h ⊢
  have hle : p.length ≤ x.length := by
    have := congrArg List.length h
    simp [List.length_take] at this
    omega
  rw [List.take_append_of_le_length hle]
  exact h

lemma intercalate_cons_head (sep x : Str) (xs : List Str) :
    ∃ t, List.intercalate sep (x :: xs) = x ++ t := by
  cases xs with
  | nil => exact ⟨[], by simp [List.intercalate]⟩
  | cons y ys =>
    refine ⟨sep ++ (List.intercalate sep (y :: ys)), ?_⟩
    simp [List.intercalate, List.intersperse]

lemma not_bw_head {a b : Char} (p s : Str) (hne : ¬ a = b) :
    ¬ beginsWith (a :: p) (b :: s) := by
  intro hbw
  unfold beginsWith at hbw
  rw [show (a :: p).length = p.length + 1 from rfl, List.take_succ_cons] at hbw
  exact hne (((List.cons.injEq _ _ _ _).mp hbw).1).symm

lemma mem_ite_nil {α} {x : α} {c : Bool} {l : List α}
    (h : x ∈ if c then l else []) : c = true ∧ x ∈ l := by
  cases c with
  | false => simp at h
  | true => exact ⟨rfl, by simpa using h⟩

lemma grepFormatTail_head (o : GrepOpts) :
    ∀ p ∈ grepFormatTail o, ∃ t, p = '|' :: t := by
  intro p hp
  unfold grepFormatTail at hp
  repeat' split at hp
  all_goals
    first
    | exact ⟨_, List.mem_singleton.mp hp⟩

lemma grep_no_gci_part (o : GrepOpts) (hrec : o.recursive = false) :
    ∀ p ∈ grepFallbackParts o, ¬ beginsWith (str "Get-ChildItem") p := by
  intro p hp
  simp [grepFallbackParts, hrec] at hp
  rcases hp with h | h | h | ⟨hf, h | h⟩ | ⟨_, h⟩ | ⟨_, h⟩ | h
  · subst h; decide
  · subst h; decide
  · split at h <;> subst h <;> exact not_bw_head _ _ (by decide)
  · subst h; decide
  · rcases hfs : o.files with _ | ⟨f, fs⟩
    · exact absurd hfs hf
    · rw [hfs] at h
      obtain ⟨t, ht⟩ := intercalate_cons_head (str ",") (psQuote f) (fs.map psQuote)
      rw [List.map_cons, ht] at h
      subst h
      exact not_bw_head _ _ (by decide)
  · subst h; decide
  · subst h; decide
  · obtain ⟨t, ht⟩ := grepFormatTail_head o p h
    rw [ht]
    exact not_bw_head _ _ (by decide)

lemma beginsWith_refl (p : Str) : beginsWith p p := by
  unfold beginsWith
  exact List.take_length ..

lemma beginsWith_intercalate_cons (sep x : Str) (xs : List Str) (p : Str)
    (h : beginsWith p x) : beginsWith p (List.intercalate sep (x :: xs)) := by
  obtain ⟨t, ht⟩ := intercalate_cons_head sep x xs
  rw [ht]
  exact beginsWith_of_append t h

lemma grep_recursive_gci (o : GrepOpts) (h : o.recursive = true) :
    beginsWith (str "Get-ChildItem")
      (List.intercalate (str " ") (grepFallbackParts o)) := by
  unfold grepFallbackParts
  rw [h]
  simp only [if_pos rfl]
  exact beginsWith_intercalate_cons _ _ _ _
    (beginsWith_intercalate_cons _ _ _ _ (beginsWith_refl _))

lemma grep_nonrecursive_ss (o : GrepOpts) (h : o.recursive = false) :
    beginsWith (str "Select-String")
      (List.intercalate (str " ") (grepFallbackParts o)) := by
  unfold grepFallbackParts
  rw [h]
  simp only [Bool.false_eq_true, if_false, List.nil_append]
  exact beginsWith_intercalate_cons _ _ _ _ (beginsWith_refl _)

/-- C7: on the grep fallback path (tools.rg = false) the emitted command
contains `Get-ChildItem` iff the recursive flag is set: recursive output
begins with `Get-ChildItem`, non-recursive output begins with
`Select-String` and no part of it begins with `Get-ChildItem`; concretely
piped `grep PAT` is a pure Select-String pipeline without `-Path`, and
`grep PAT FILE` has `ForEach-Object { $_.Line }` and no Get-ChildItem. -/
theorem c7_grep_fallback_inserts_gci_only_if_recursive :
    (∀ (cmd : SimpleCmd) (ctx : Ctx), ctx.tools.rg = false →
      (grepTranslator cmd ctx).command =
        List.intercalate (str " ") (grepFallbackParts (grepOpts cmd))) ∧
    (∀ o : GrepOpts, o.recursive = true →
      beginsWith (str "Get-ChildItem")
        (List.intercalate (str " ") (grepFallbackParts o))) ∧
    (∀ o : GrepOpts, o.recursive = false →
      beginsWith (str "Select-String")
        (List.intercalate (str " ") (grepFallbackParts o)) ∧
      ∀ p ∈ grepFallbackParts o, ¬ beginsWith (str "Get-ChildItem") p) ∧
    transpile 60 noTools (str "grep PAT") =
      some (str "Select-String -Pattern 'PAT' -CaseSensitive | ForEach-Object \x7b $_.Line \x7d") ∧
    containsSub
      (str "Select-String -Pattern 'PAT' -CaseSensitive | ForEach-Object \x7b $_.Line \x7d")
      (str "Get-ChildItem") = false ∧
    containsSub
      (str "Select-String -Pattern 'PAT' -CaseSensitive | ForEach-Object \x7b $_.Line \x7d")
      (str "-Path") = false ∧
    transpile 60 noTools (str "grep PAT FILE") =
      some (str "Select-String -Pattern 'PAT' -Path 'FILE' -CaseSensitive | ForEach-Object \x7b $_.Line \x7d") ∧
    containsSub
      (str "Select-String -Pattern 'PAT' -Path 'FILE' -CaseSensitive | ForEach-Object \x7b $_.Line \x7d")
      (str "Get-ChildItem") = false ∧
    transpile 60 noTools (str "grep -r PAT DIR") =
      some (str "Get-ChildItem -Recurse -File -Path 'DIR' | Select-String -Pattern 'PAT' -CaseSensitive | ForEach-Object \x7b \"$($_.Path):$($_.Line)\" \x7d") := by
  refine ⟨?_, grep_recursive_gci, ?_, by decide, by decide, by decide, by decide, by decide, by decide⟩
  · intro cmd ctx h
    simp [grepTranslator, h]
  · intro o h
    exact ⟨grep_nonrecursive_ss o h, grep_no_gci_part o h⟩

theorem c7_witness_grep :
    (grepTranslator ⟨[], some ⟨[.literal (str "grep") .unquoted]⟩,
        [⟨[.literal (str "PAT") .unquoted]⟩, ⟨[.literal (str "FILE") .unquoted]⟩], []⟩
      (ctx0 noTools)).command =
      List.intercalate (str " ")
        (grepFallbackParts (grepOpts ⟨[], some ⟨[.literal (str "grep") .unquoted]⟩,
          [⟨[.literal (str "PAT") .unquoted]⟩, ⟨[.literal (str "FILE") .unquoted]⟩], []⟩)) :=
  c7_grep_fallback_inserts_gci_only_if_recursive.1 _ (ctx0 noTools) rfl

-- ===================================================================
-- CLAIM C8: logical operator lowering
-- ===================================================================

/-- C8: for every logical chain, `L && R` lowers to `<L>; if ($?) { <R> }`,
`L || R` to `<L>; if (-not $?) { <R> }`, and `L ; R` to `<L>; <R>`; the
script entry point joins per-statement outputs with `"; "`; and concretely
`cd frontend && npm install` transpiles to
`Set-Location frontend; if ($?) { npm install }`. -/
theorem c8_logical_lowering :
    (∀ (cs : Str → Ctx → Option (Str × Ctx)) (l r : StmtNode) (ctx : Ctx),
      translateStatement cs (.logical .andOp l r) ctx =
        (do
          let (ls, c1) ← translateStatement cs l ctx
          let (rs, c2) ← translateStatement cs r c1
          some (ls ++ str "; if ($?) \x7b " ++ rs ++ str " \x7d", c2))) ∧
    (∀ (cs : Str → Ctx → Option (Str × Ctx)) (l r : StmtNode) (ctx : Ctx),
      translateStatement cs (.logical .orOp l r) ctx =
        (do
          let (ls, c1) ← translateStatement cs l ctx
          let (rs, c2) ← translateStatement cs r c1
          some (ls ++ str "; if (-not $?) \x7b " ++ rs ++ str " \x7d", c2))) ∧
    (∀ (cs : Str → Ctx → Option (Str × Ctx)) (l r : StmtNode) (ctx : Ctx),
      translateStatement cs (.logical .semiOp l r) ctx =
        (do
          let (ls, c1) ← translateStatement cs l ctx
          let (rs, c2) ← translateStatement cs r c1
          some (ls ++ str "; " ++ rs, c2))) ∧
    (∀ (cs : Str → Ctx → Option (Str × Ctx)) (body : List StmtNode) (ctx : Ctx),
      translateScript cs body ctx =
        (translateStatements cs body ctx).map fun p =>
          (List.intercalate (str "; ") p.1, p.2)) ∧
    transpile 60 noTools (str "cd frontend && npm install") =
      some (str "Set-Location frontend; if ($?) \x7b npm install \x7d") := by
  refine ⟨?_, ?_, ?_, ?_, ?_⟩
  · intro cs l r ctx
    simp only [translateStatement]
  · intro cs l r ctx
    simp only [translateStatement]
  · intro cs l r ctx
    simp only [translateStatement]
  · intro cs body ctx
    unfold translateScript
    cases translateStatements cs body ctx with
    | none => rfl
    | some p => rfl
  · decide

-- ===================================================================
-- CLAIM C9: piped wc -l
-- ===================================================================

set_option maxRecDepth 100000 in
/-- C9: the claim says a file-less (piped) `wc -l` emits the pure
pipe-segment form `Measure-Object -Line | ForEach-Object { $_.Lines }` and
the pipeline never uses a parenthesized property access as a pipe segment.
In fact `wcTranslator` emits `(Measure-Object -Line).Lines`, so the
transpiled `cat file.txt | grep "error" | wc -l` ends in the pipe segment
`| (Measure-Object -Line).Lines`. -/
theorem c9_wc_piped_parenthesized_property_access :
    transpile 60 noTools (str "cat file.txt | grep \"error\" | wc -l") =
      some (str "Get-Content file.txt | Select-String -Pattern 'error' -CaseSensitive | ForEach-Object \x7b $_.Line \x7d | (Measure-Object -Line).Lines") ∧
    containsSub
      (str "Get-Content file.txt | Select-String -Pattern 'error' -CaseSensitive | ForEach-Object \x7b $_.Line \x7d | (Measure-Object -Line).Lines")
      (str "| (Measure-Object") = true ∧
    containsSub
      (str "Get-Content file.txt | Select-String -Pattern 'error' -CaseSensitive | ForEach-Object \x7b $_.Line \x7d | (Measure-Object -Line).Lines")
      (str "Measure-Object -Line | ForEach-Object") = false ∧
    (wcTranslator ⟨[], some ⟨[.literal (str "wc") .unquoted]⟩,
        [⟨[.literal (str "-l") .unquoted]⟩], []⟩).command =
      str "(Measure-Object -Line).Lines" := by decide

-- ===================================================================
-- CLAIM C10: single-quoted literal rendering
-- ===================================================================

/-- C10 counterexample: a single-quoted word whose content is `/tmp` is NOT
rendered as the quoted literal `'/tmp'`: `translatePathInArgs` runs before
quoting and ignores the quoting tag, so it comes out as `$env:TEMP`. -/
theorem c10_counterexample_tmp_single :
    translateWord (csAt 5) ⟨[.literal (str "/tmp") .single]⟩ (ctx0 noTools) =
      some (str "$env:TEMP", ctx0 noTools) ∧
    ¬ translateWord (csAt 5) ⟨[.literal (str "/tmp") .single]⟩ (ctx0 noTools) =
      some (str "'/tmp'", ctx0 noTools) ∧
    transpile 60 noTools (str "somecmd '/tmp'") = some (str "somecmd $env:TEMP") := by
  decide

/-- C10: amended.  A single-quoted literal word whose content is not of the
`/tmp` path-rewritten form renders as the content wrapped in PowerShell
single quotes with every `'` doubled and nothing else altered
(`escapePsSingleQuote` is exactly the per-character map doubling `'`);
contents of the `/tmp` form are path-rewritten first (see the
counterexample), contrary to the claim's universal wording. -/
theorem c10_single_quote_escape_shape :
    (∀ (cs : Str → Ctx → Option (Str × Ctx)) (s : Str) (ctx : Ctx),
      ¬ s = str "/tmp" → ¬ s = str "/tmp/" → ¬ s.take 5 = str "/tmp/" →
      translateWord cs ⟨[.literal s .single]⟩ ctx =
        some ('\'' :: escapePsSingleQuote s ++ ['\''], ctx)) ∧
    (∀ s : Str, escapePsSingleQuote s =
      s.flatMap fun c => if c = '\'' then [c, c] else [c]) ∧
    translateWord (csAt 5) ⟨[.literal (str "it_s_'quoted'") .single]⟩ (ctx0 noTools) =
      some (str "'it_s_''quoted'''", ctx0 noTools) := by
  refine ⟨?_, ?_, by decide⟩
  · intro cs s ctx h1 h2 h3
    simp [translateWord, translatePathInArgs, translateSinglePart, translateLiteral,
      h1, h2, h3]
  · intro s
    induction s with
    | nil => rfl
    | cons c cs ih =>
      simp only [escapePsSingleQuote, List.flatMap_cons, ih]
      split <;> simp_all

end BashPS
